import Mathlib

/-!
Shallow embedding of the NVSpeechPlayer frontend core:
the boundary-smoothing pass (src/frontend/passes/boundary_smoothing.cpp),
the coarticulation pass (src/frontend/passes/coarticulation.cpp),
and the frontend API state machine (src/frontend/nvspFrontend.cpp).

C++ doubles are modelled as rationals, the bitmask-indexed field array as a
function out of a field-identifier type together with a set-mask predicate,
and the phoneme-definition pointer as an `Option`.  The in-place loops of the
two passes are embedded as index-by-index state-passing loops so that the
evaluation order of the C++ code (each token may read the partially updated
vector) is preserved exactly.
-/

namespace NVSP

/-- The Klatt field identifiers that the two embedded passes touch
(the full C++ enum has more members; only these are read or written by
the code under verification). -/
inductive FieldId where
  | cf2
  | cf3
  | pf2
  | pf3
  | fricationAmplitude
deriving DecidableEq

/-- Phoneme definition: key (Unicode scalar sequence), flag set, and the
default field vector with its set-mask.  Flags are modelled as one Bool per
flag bit of the C++ `flags` word. -/
structure PhonemeDef where
  key : List Char
  isVowel : Bool := false
  isSemivowel : Bool := false
  isStop : Bool := false
  isAfricate : Bool := false
  setMask : FieldId → Bool := fun _ => false
  fieldv : FieldId → ℚ := fun _ => 0

/-- In-pipeline token.  `tdef` models the C++ `const PhonemeDef* def`
(pointer, possibly null). -/
structure Token where
  tdef : Option PhonemeDef := none
  silence : Bool := false
  wordStart : Bool := false
  postStopAspiration : Bool := false
  preStopGap : Bool := false
  clusterGap : Bool := false
  vowelHiatusGap : Bool := false
  durationMs : ℚ := 0
  fadeMs : ℚ := 0
  setMask : FieldId → Bool := fun _ => false
  fieldv : FieldId → ℚ := fun _ => 0

/-- The language-pack settings read by the embedded code. -/
structure LanguagePack where
  boundarySmoothingEnabled : Bool := true
  boundarySmoothingVowelToStopFadeMs : ℚ := 0
  boundarySmoothingStopToVowelFadeMs : ℚ := 0
  boundarySmoothingVowelToFricFadeMs : ℚ := 0
  coarticulationEnabled : Bool := true
  coarticulationStrength : ℚ := 0
  coarticulationTransitionExtent : ℚ := 0
  coarticulationGraduated : Bool := false
  coarticulationAdjacencyMaxConsonants : ℚ := 0
  coarticulationLabialF2Locus : ℚ := 0
  coarticulationAlveolarF2Locus : ℚ := 0
  coarticulationVelarF2Locus : ℚ := 0
  coarticulationVelarPinchEnabled : Bool := false
  coarticulationVelarPinchThreshold : ℚ := 0
  coarticulationVelarPinchF2Scale : ℚ := 0
  coarticulationVelarPinchF3 : ℚ := 0
  coarticulationFadeIntoConsonants : Bool := false
  coarticulationWordInitialFadeScale : ℚ := 0
  segmentBoundaryGapMs : ℚ := 0
  segmentBoundaryFadeMs : ℚ := 0

/-- A merged pack set: phoneme table plus language pack. -/
structure PackSet where
  phonemes : List PhonemeDef := []
  lang : LanguagePack := {}

/-- The per-call pass context (the fields of the C++ `PassContext` that the
embedded passes read). -/
structure PassContext where
  speed : ℚ := 1
  pack : PackSet := {}

/-- `std::clamp` on rationals. -/
def rclamp (v lo hi : ℚ) : ℚ := min hi (max lo v)

/-- C `round` (round half away from zero), as used by `std::round` on the
adjacency knob. -/
def roundHalfAway (q : ℚ) : ℤ := if q < 0 then -(Int.floor (-q + 1/2)) else Int.floor (q + 1/2)

namespace BoundarySmoothing

/-- `tokIsSilenceOrMissing` from boundary_smoothing.cpp. -/
def tokIsSilenceOrMissing (t : Token) : Bool := t.silence || t.tdef.isNone

/-- `tokIsVowel` from boundary_smoothing.cpp. -/
def tokIsVowel (t : Token) : Bool :=
  match t.tdef with
  | some d => d.isVowel
  | none => false

/-- `tokIsSemivowel` from boundary_smoothing.cpp. -/
def tokIsSemivowel (t : Token) : Bool :=
  match t.tdef with
  | some d => d.isSemivowel
  | none => false

/-- `tokIsVowelLike` from boundary_smoothing.cpp. -/
def tokIsVowelLike (t : Token) : Bool := tokIsVowel t || tokIsSemivowel t

/-- `tokIsStopLike` from boundary_smoothing.cpp: post-stop aspiration counts
as part of the stop release; otherwise the stop or affricate flag decides. -/
def tokIsStopLike (t : Token) : Bool :=
  match t.tdef with
  | none => false
  | some d =>
    if t.silence then false
    else if t.postStopAspiration then true
    else d.isStop || d.isAfricate

/-- `tokIsFricativeLike` from boundary_smoothing.cpp: a positive
`fricationAmplitude` (token override first, else the phoneme default). -/
def tokIsFricativeLike (t : Token) : Bool :=
  match t.tdef with
  | none => false
  | some d =>
    if t.silence then false
    else
      let v : ℚ :=
        if t.setMask FieldId.fricationAmplitude then t.fieldv FieldId.fricationAmplitude
        else if d.setMask FieldId.fricationAmplitude then d.fieldv FieldId.fricationAmplitude
        else 0
      decide (0 < v)

/-- `clampFadeToDuration` from boundary_smoothing.cpp. -/
def clampFadeToDuration (t : Token) : Token :=
  let d := if t.durationMs < 0 then 0 else t.durationMs
  let f := if t.fadeMs < 0 then 0 else t.fadeMs
  let f := if d < f then d else f
  { t with durationMs := d, fadeMs := f }

/-- Whether a silence token stops the backwards search of `findPrevReal`:
it is not an inserted micro-gap and it is longer than `maxSkipSilenceMs`. -/
def stopsPrevSearch (t : Token) (maxSkipSilenceMs : ℚ) : Bool :=
  t.silence && !(t.preStopGap || t.clusterGap || t.vowelHiatusGap)
    && decide (maxSkipSilenceMs < t.durationMs)

/-- The descending loop body of `findPrevReal`, scanning indices `j, j-1, …, 0`. -/
def findPrevRealFrom (tokens : List Token) (maxSkipSilenceMs : ℚ) : Nat → Option Nat
  | 0 =>
    match tokens[0]? with
    | none => none
    | some t => if !tokIsSilenceOrMissing t then some 0 else none
  | j + 1 =>
    match tokens[j + 1]? with
    | none => none
    | some t =>
      if !tokIsSilenceOrMissing t then some (j + 1)
      else if stopsPrevSearch t maxSkipSilenceMs then none
      else findPrevRealFrom tokens maxSkipSilenceMs j

/-- `findPrevReal` from boundary_smoothing.cpp (`-1` becomes `none`). -/
def findPrevReal (tokens : List Token) (idxBefore : ℤ) (maxSkipSilenceMs : ℚ) : Option Nat :=
  if idxBefore < 0 then none
  else findPrevRealFrom tokens maxSkipSilenceMs idxBefore.toNat

/-- One iteration of the `runBoundarySmoothing` loop: the update applied to
the token at index `i` of the current state `st`. -/
def smooth1 (v2s s2v v2f : ℚ) (st : List Token) (i : Nat) (cur : Token) : Token :=
  if tokIsSilenceOrMissing cur then cur
  else
    match findPrevReal st ((i : ℤ) - 1) 60 with
    | none => cur
    | some p =>
      match st[p]? with
      | none => cur
      | some prev =>
        if 0 < v2s ∧ tokIsVowelLike prev = true ∧ tokIsStopLike cur = true then
          clampFadeToDuration { cur with fadeMs := max cur.fadeMs v2s }
        else if 0 < s2v ∧ tokIsStopLike prev = true ∧ tokIsVowelLike cur = true then
          clampFadeToDuration { cur with fadeMs := max cur.fadeMs s2v }
        else if 0 < v2f ∧ tokIsVowelLike prev = true ∧ tokIsFricativeLike cur = true then
          clampFadeToDuration { cur with fadeMs := max cur.fadeMs v2f }
        else cur

end BoundarySmoothing

/-- The shared shape of the in-place pass loops: visit indices `i, i+1, …`
(up to `fuel` of them), replacing the token at each index by `step st i cur`
computed against the current, partially updated state — exactly the C++
`for` loops that mutate `tokens[i]` in place. -/
def passLoop (step : List Token → Nat → Token → Token) : Nat → Nat → List Token → List Token
  | 0, _, st => st
  | fuel + 1, i, st =>
    match st[i]? with
    | none => st
    | some cur => passLoop step fuel (i + 1) (st.set i (step st i cur))

namespace BoundarySmoothing

/-- `runBoundarySmoothing` from boundary_smoothing.cpp.  The C++ function
always returns `true`; the embedding returns the updated token vector. -/
def runBoundarySmoothing (ctx : PassContext) (tokens : List Token) : List Token :=
  let lang := ctx.pack.lang
  if lang.boundarySmoothingEnabled = false then tokens
  else if tokens.length < 2 then tokens
  else
    let sp := if 0 < ctx.speed then ctx.speed else 1
    let v2s := (max 0 lang.boundarySmoothingVowelToStopFadeMs) / sp
    let s2v := (max 0 lang.boundarySmoothingStopToVowelFadeMs) / sp
    let v2f := (max 0 lang.boundarySmoothingVowelToFricFadeMs) / sp
    passLoop (smooth1 v2s s2v v2f) tokens.length 0 tokens

end BoundarySmoothing

namespace Coarticulation

/-- `hasField` from coarticulation.cpp. -/
def hasField (t : Token) (id : FieldId) : Bool := t.setMask id

/-- `getField` from coarticulation.cpp: the token's field value if set,
else the phoneme definition's, else 0. -/
def getField (t : Token) (id : FieldId) : ℚ :=
  if hasField t id then t.fieldv id
  else
    match t.tdef with
    | some d => if d.setMask id then d.fieldv id else 0
    | none => 0

/-- `setField` from coarticulation.cpp: write the value and mark the
set-mask bit so `emitFrames` will use it. -/
def setField (t : Token) (id : FieldId) (value : ℚ) : Token :=
  { t with
    fieldv := fun j => if j = id then value else t.fieldv j,
    setMask := fun j => if j = id then true else t.setMask j }

/-- `isVowel` from coarticulation.cpp. -/
def isVowel (t : Token) : Bool :=
  match t.tdef with
  | some d => d.isVowel
  | none => false

/-- `isSilenceOrMissing` from coarticulation.cpp. -/
def isSilenceOrMissing (t : Token) : Bool := t.silence || t.tdef.isNone

/-- `isConsonant` from coarticulation.cpp: has a definition and is not a vowel. -/
def isConsonant (t : Token) : Bool :=
  match t.tdef with
  | some d => !d.isVowel
  | none => false

/-- `isSemivowel` from coarticulation.cpp. -/
def isSemivowel (t : Token) : Bool :=
  match t.tdef with
  | some d => d.isSemivowel
  | none => false

/-- `isVowelLike` from coarticulation.cpp. -/
def isVowelLike (t : Token) : Bool := isVowel t || isSemivowel t

/-- Place of articulation, from coarticulation.cpp. -/
inductive PlaceOfArticulation where
  | Unknown
  | Labial
  | Alveolar
  | Velar
deriving DecidableEq

/-- `getPlaceOfArticulation` from coarticulation.cpp, keyed on the phoneme key. -/
def getPlaceOfArticulation (key : List Char) : PlaceOfArticulation :=
  if key = ['p'] ∨ key = ['b'] ∨ key = ['m'] ∨ key = ['f'] ∨ key = ['v'] ∨
     key = ['w'] ∨ key = ['ʍ'] then
    PlaceOfArticulation.Labial
  else if key = ['t'] ∨ key = ['d'] ∨ key = ['n'] ∨ key = ['s'] ∨ key = ['z'] ∨
          key = ['l'] ∨ key = ['r'] ∨ key = ['ɾ'] ∨ key = ['ɹ'] ∨ key = ['ɬ'] ∨
          key = ['ɮ'] then
    PlaceOfArticulation.Alveolar
  else if key = ['k'] ∨ key = ['g'] ∨ key = ['ŋ'] ∨ key = ['x'] ∨ key = ['ɣ'] then
    PlaceOfArticulation.Velar
  else PlaceOfArticulation.Unknown

/-- `VowelHit` from coarticulation.cpp; the C++ `const Token* tok` pointer
into the vector is modelled as the index it points at. -/
structure VowelHit where
  tokIdx : Option Nat := none
  consonantsAway : Nat := 0
deriving DecidableEq

/-- Loop body of `findNearestVowelLeft`: at argument `j + 1` it examines
`tokens[j]` (the C++ loop variable runs `j = i; j > 0; --j` and reads
`tokens[j-1]`). -/
def findNearestVowelLeftAux (tokens : List Token) (crossWord : Bool) (maxConsonants : Nat) :
    Nat → Nat → VowelHit
  | 0, _ => {}
  | j + 1, cons =>
    match tokens[j]? with
    | none => {}
    | some prev =>
      if isSilenceOrMissing prev then {}
      else if isVowelLike prev then { tokIdx := some j, consonantsAway := cons }
      else if maxConsonants < cons + 1 then {}
      else if !crossWord && prev.wordStart then {}
      else findNearestVowelLeftAux tokens crossWord maxConsonants j (cons + 1)

/-- `findNearestVowelLeft` from coarticulation.cpp. -/
def findNearestVowelLeft (tokens : List Token) (i : Nat) (crossWord : Bool)
    (maxConsonants : Nat) : VowelHit :=
  findNearestVowelLeftAux tokens crossWord maxConsonants i 0

/-- Loop body of `findNearestVowelRight`, scanning `tokens[j]`, `tokens[j+1]`, …
with enough fuel to reach the end of the vector. -/
def findNearestVowelRightAux (tokens : List Token) (crossWord : Bool) (maxConsonants : Nat) :
    Nat → Nat → Nat → VowelHit
  | 0, _, _ => {}
  | fuel + 1, j, cons =>
    match tokens[j]? with
    | none => {}
    | some next =>
      if isSilenceOrMissing next then {}
      else if !crossWord && next.wordStart then {}
      else if isVowelLike next then { tokIdx := some j, consonantsAway := cons }
      else if maxConsonants < cons + 1 then {}
      else findNearestVowelRightAux tokens crossWord maxConsonants fuel (j + 1) (cons + 1)

/-- `findNearestVowelRight` from coarticulation.cpp. -/
def findNearestVowelRight (tokens : List Token) (i : Nat) (crossWord : Bool)
    (maxConsonants : Nat) : VowelHit :=
  findNearestVowelRightAux tokens crossWord maxConsonants tokens.length (i + 1) 0

/-- `hitWeight` from coarticulation.cpp: `1/(consonantsAway+1)`, or 0 for a miss. -/
def hitWeight (h : VowelHit) : ℚ :=
  match h.tokIdx with
  | none => 0
  | some _ => 1 / ((h.consonantsAway : ℚ) + 1)

/-- The value computed by the first half of `applyLocusShift`: the consonant's
own formant if positive, else the adjacent vowel's, else the locus itself. -/
def locusBase (c : Token) (formantId : FieldId) (locus : ℚ) (adjacentVowel : Option Token) : ℚ :=
  let current := getField c formantId
  if current ≤ 0 then
    let current :=
      match adjacentVowel with
      | some v => getField v formantId
      | none => current
    if current ≤ 0 then locus else current
  else current

/-- `applyLocusShift` from coarticulation.cpp: interpolate the formant toward
the locus by `strength` and write it back with the set-mask bit. -/
def applyLocusShift (c : Token) (formantId : FieldId) (locus strength : ℚ)
    (adjacentVowel : Option Token) : Token :=
  let current := locusBase c formantId locus adjacentVowel
  setField c formantId (current + (locus - current) * strength)

/-- The vowel F2 used by the velar pinch: cascade F2, falling back to
parallel F2 when the cascade value is not positive. -/
def pinchVowelF2 (v : Token) : ℚ :=
  let vowelF2 := getField v FieldId.cf2
  if vowelF2 ≤ 0 then getField v FieldId.pf2 else vowelF2

/-- The result of the `blendToward` lambda inside `applyVelarPinch` on the
field value: a non-positive current value snaps to the target first. -/
def blendVal (cur target strength : ℚ) : ℚ :=
  let c := if cur ≤ 0 then target else cur
  c + (target - c) * strength

/-- The `blendToward` lambda inside `applyVelarPinch`. -/
def blendToward (c : Token) (id : FieldId) (target strength : ℚ) : Token :=
  setField c id (blendVal (getField c id) target strength)

/-- `applyVelarPinch` from coarticulation.cpp. -/
def applyVelarPinch (c nextVowel : Token) (lang : LanguagePack) (strength : ℚ) : Token :=
  let strength := rclamp strength 0 1
  if strength ≤ 0 then c
  else
    let vowelF2 := pinchVowelF2 nextVowel
    if vowelF2 < lang.coarticulationVelarPinchThreshold then c
    else
      let pinchF2 := vowelF2 * lang.coarticulationVelarPinchF2Scale
      let pinchF3 := lang.coarticulationVelarPinchF3
      let c := blendToward c FieldId.cf2 pinchF2 strength
      let c := blendToward c FieldId.pf2 pinchF2 strength
      if 0 < pinchF3 then
        blendToward (blendToward c FieldId.cf3 pinchF3 strength) FieldId.pf3 pinchF3 strength
      else c

/-- The adjacency knob: `std::clamp(round(x), 0, 6)` as a natural number. -/
def adjMaxCons (lang : LanguagePack) : Nat :=
  (min 6 (max 0 (roundHalfAway lang.coarticulationAdjacencyMaxConsonants))).toNat

/-- The F2 locus selected by the `switch (place)` in `runCoarticulation`. -/
def locusFor (lang : LanguagePack) (place : PlaceOfArticulation) : ℚ :=
  match place with
  | PlaceOfArticulation.Labial => lang.coarticulationLabialF2Locus
  | PlaceOfArticulation.Alveolar => lang.coarticulationAlveolarF2Locus
  | PlaceOfArticulation.Velar => lang.coarticulationVelarF2Locus
  | PlaceOfArticulation.Unknown => 0

/-- The trailing fade block of the `runCoarticulation` loop body ("longer
fade INTO consonants"): raise the fade toward `durationMs·extent`, damped by
the graduated weight and the word-initial scale, then cap fade at duration. -/
def fadeIntoConsonant (lang : LanguagePack) (w extent : ℚ) (c1 : Token) : Token :=
  if lang.coarticulationFadeIntoConsonants = true ∧ 0 < extent ∧ 0 < c1.durationMs then
    let minFade := c1.durationMs * extent
    let minFade :=
      if lang.coarticulationGraduated then minFade * rclamp w 0 1 else minFade
    let minFade :=
      if c1.wordStart then minFade * lang.coarticulationWordInitialFadeScale
      else minFade
    let f := max c1.fadeMs minFade
    { c1 with fadeMs := if c1.durationMs < f then c1.durationMs else f }
  else c1

/-- One iteration of the `runCoarticulation` loop: the update applied to the
token at index `i` of the current state `st`. -/
def coartStep (lang : LanguagePack) (strength extent : ℚ) (st : List Token) (i : Nat)
    (c : Token) : Token :=
  if isSilenceOrMissing c then c
  else if !isConsonant c then c
  else
    match c.tdef with
    | none => c
    | some d =>
      let place := getPlaceOfArticulation d.key
      if place = PlaceOfArticulation.Unknown then c
      else
        let locusF2 : ℚ := locusFor lang place
        let maxCons := adjMaxCons lang
        let left := findNearestVowelLeft st i false maxCons
        let right := findNearestVowelRight st i false maxCons
        let w : ℚ :=
          if lang.coarticulationGraduated then max (hitWeight left) (hitWeight right) else 1
        if lang.coarticulationGraduated = true ∧ w ≤ 0 then c
        else
          let effStrength := strength * rclamp w 0 1
          let adjIdx : Option Nat :=
            match right.tokIdx, left.tokIdx with
            | some rj, none => some rj
            | some rj, some lj =>
              if right.consonantsAway ≤ left.consonantsAway then some rj else some lj
            | none, lj => lj
          let adjacentVowel : Option Token := adjIdx.bind fun j => st[j]?
          let c1 :=
            if place = PlaceOfArticulation.Velar ∧ lang.coarticulationVelarPinchEnabled = true ∧
               right.tokIdx.isSome = true ∧ right.consonantsAway = 0 then
              match right.tokIdx with
              | some rj =>
                match st[rj]? with
                | some nextVowel => applyVelarPinch c nextVowel lang effStrength
                | none => c
              | none => c
            else
              applyLocusShift (applyLocusShift c FieldId.cf2 locusF2 effStrength adjacentVowel)
                FieldId.pf2 locusF2 effStrength adjacentVowel
          fadeIntoConsonant lang w extent c1

/-- `runCoarticulation` from coarticulation.cpp.  The C++ function always
returns `true`; the embedding returns the updated token vector. -/
def runCoarticulation (ctx : PassContext) (tokens : List Token) : List Token :=
  let lang := ctx.pack.lang
  if lang.coarticulationEnabled = false then tokens
  else
    let strength := rclamp lang.coarticulationStrength 0 1
    if strength ≤ 0 then tokens
    else
      let extent := rclamp lang.coarticulationTransitionExtent 0 1
      passLoop (coartStep lang strength extent) tokens.length 0 tokens

end Coarticulation

namespace Frontend

/-- One frame delivered to the caller's `frameCallback`: a null frame body
(`isNull`) denotes silence. -/
structure FrameEvent where
  isNull : Bool
  minDurationMs : ℚ
  fadeMs : ℚ
  userIndex : ℤ
deriving DecidableEq

/-- The per-handle state of nvspFrontend.cpp (`struct Handle`), minus the
mutex, which only serialises producer calls. -/
structure HandleState where
  packDir : String := ""
  pack : PackSet := {}
  packLoaded : Bool := false
  langTag : String := ""
  lastError : String := ""
  streamHasSpeech : Bool := false

/-- The collaborators of nvspFrontend.cpp that live outside the source under
verification (pack loading, language-tag normalisation, the IPA pipeline and
the frame emitter), taken as arbitrary functions.  `loadPackSet` returns the
C++ `(bool ok, PackSet pack, std::string err)` out-parameters;
`convertCore` likewise returns `(ok, tokens, err)`. -/
structure FrontendEnv where
  loadPackSet : String → String → Bool × PackSet × String
  normalizeLangTag : String → String
  convertCore : PackSet → String → ℚ → ℚ → ℚ → Char → Bool × List Token × String
  emitFrames : PackSet → List Token → ℤ → List FrameEvent

/-- The effective speed used by `nvspFrontend_queueIPA`:
`(speed <= 0.0) ? 1.0 : speed`. -/
def effectiveSpeed (speed : ℚ) : ℚ := if speed ≤ 0 then 1 else speed

/-- Modelled from the spec: `convertIpaToTokens` is declared in
`ipa_engine.h` and its implementation (tokenizer plus pass pipeline) is not
under the verified sources.  Per the frontend API contract, "`speed` is a
positive multiplier; values ≤ 0 are treated as 1.0", so the conversion
pipeline consumes the effective speed; everything else is left abstract. -/
def convertIpaToTokens (env : FrontendEnv) (pack : PackSet) (ipa : String)
    (speed basePitch inflection : ℚ) (clauseType : Char) : Bool × List Token × String :=
  env.convertCore pack ipa (effectiveSpeed speed) basePitch inflection clauseType

/-- The clause-type parsing of `nvspFrontend_queueIPA`: first byte of the
string if present, else `'.'` (a null pointer is modelled as `none`). -/
def parseClauseType (clauseType? : Option String) : Char :=
  match clauseType? with
  | some s =>
    match s.toList with
    | c :: _ => c
    | [] => '.'
  | none => '.'

/-- `nvspFrontend_setLanguage` from nvspFrontend.cpp: result status and the
updated handle state. -/
def nvspFrontend_setLanguage (env : FrontendEnv) (h : HandleState)
    (langTag? : Option String) : Bool × HandleState :=
  let h := { h with lastError := "" }
  let lang := langTag?.getD ""
  match env.loadPackSet h.packDir lang with
  | (false, _, err) =>
    (false, { h with lastError := if err = "" then "Failed to load pack set" else err })
  | (true, pack, _) =>
    (true, { h with
      pack := pack,
      packLoaded := true,
      langTag := env.normalizeLangTag lang,
      streamHasSpeech := false })

/-- Result of a `queueIPA` call: status, updated handle state, and the frames
delivered (in order) to the frame callback during the call. -/
structure QueueResult where
  ok : Bool
  state : HandleState
  events : List FrameEvent

/-- `nvspFrontend_queueIPA` from nvspFrontend.cpp.  `cbPresent` models
whether the caller passed a non-null frame callback. -/
def nvspFrontend_queueIPA (env : FrontendEnv) (h : HandleState) (ipa? : Option String)
    (speed basePitch inflection : ℚ) (clauseType? : Option String) (userIndexBase : ℤ)
    (cbPresent : Bool) : QueueResult :=
  let h0 := { h with lastError := "" }
  match (if h0.packLoaded then (true, h0) else
      match env.loadPackSet h0.packDir "default" with
      | (false, _, err) =>
        (false, { h0 with
          lastError := if err = "" then "No language loaded and default load failed" else err })
      | (true, pack, _) =>
        (true, { h0 with pack := pack, packLoaded := true, langTag := "default" })) with
  | (false, h1) => { ok := false, state := h1, events := [] }
  | (true, h1) =>
    let ipa := ipa?.getD ""
    let clauseType := parseClauseType clauseType?
    match convertIpaToTokens env h1.pack ipa speed basePitch inflection clauseType with
    | (false, _, err) =>
      { ok := false,
        state := { h1 with lastError := if err = "" then "IPA conversion failed" else err },
        events := [] }
    | (true, tokens, _) =>
      let effSpeed := effectiveSpeed speed
      let gapEvents : List FrameEvent :=
        if cbPresent && h1.streamHasSpeech && !tokens.isEmpty then
          let gap := h1.pack.lang.segmentBoundaryGapMs
          let fade := h1.pack.lang.segmentBoundaryFadeMs
          if 0 < gap then
            [{ isNull := true,
               minDurationMs := gap / effSpeed,
               fadeMs := if 0 < fade then fade / effSpeed else 0,
               userIndex := -1 }]
          else []
        else []
      let ownEvents := if cbPresent then env.emitFrames h1.pack tokens userIndexBase else []
      { ok := true,
        state := { h1 with
          streamHasSpeech := if !tokens.isEmpty then true else h1.streamHasSpeech },
        events := gapEvents ++ ownEvents }

/-- `nvspFrontend_getLastError` from nvspFrontend.cpp (for a valid handle). -/
def nvspFrontend_getLastError (h : HandleState) : String := h.lastError

end Frontend

/-! ### Agreement relations used to reason about the in-place pass loops

Each pass iterates over the vector mutating one token at a time, and a later
iteration may read earlier (already mutated) tokens.  The relations below
record exactly which token components a pass can change, so that the reads a
pass performs on earlier tokens can be transported back to the original
vector. -/

/-- What one boundary-smoothing iteration may change about a token: only
`fadeMs`, and `durationMs` of non-silence tokens (via the clamp).  Everything
the pass ever reads from *other* tokens is preserved. -/
structure BsAgree (a b : Token) : Prop where
  tdef : a.tdef = b.tdef
  silence : a.silence = b.silence
  wordStart : a.wordStart = b.wordStart
  postStopAspiration : a.postStopAspiration = b.postStopAspiration
  preStopGap : a.preStopGap = b.preStopGap
  clusterGap : a.clusterGap = b.clusterGap
  vowelHiatusGap : a.vowelHiatusGap = b.vowelHiatusGap
  setMask : a.setMask = b.setMask
  fieldv : a.fieldv = b.fieldv
  durationMs : BoundarySmoothing.tokIsSilenceOrMissing a = true → a.durationMs = b.durationMs

/-- What one coarticulation iteration may change about a token: formant
fields, the set-mask and `fadeMs`.  The vowel searches only read these three
components of other tokens. -/
structure CaAgree (a b : Token) : Prop where
  tdef : a.tdef = b.tdef
  silence : a.silence = b.silence
  wordStart : a.wordStart = b.wordStart

/-- Pointwise agreement of two token vectors under a relation. -/
def ListAgree (R : Token → Token → Prop) (st ts : List Token) : Prop :=
  st.length = ts.length ∧ ∀ (j : Nat) (a b : Token), st[j]? = some a → ts[j]? = some b → R a b

/-! ### Concrete fixtures used by witnesses and counterexamples -/

/-- Set-mask builder for example phoneme definitions. -/
def mkMask (ids : List FieldId) : FieldId → Bool := fun id => decide (id ∈ ids)

/-- Field-vector builder for example phoneme definitions. -/
def mkVals (vals : List (FieldId × ℚ)) : FieldId → ℚ := fun id =>
  (Option.map Prod.snd (vals.find? fun p => decide (p.1 = id))).getD 0

/-- Example open vowel /a/ with a mid F2. -/
def pdA : PhonemeDef :=
  { key := ['a'], isVowel := true, setMask := mkMask [FieldId.cf2],
    fieldv := mkVals [(FieldId.cf2, 1200)] }

/-- Example front vowel /i/ with a high F2. -/
def pdI : PhonemeDef :=
  { key := ['i'], isVowel := true, setMask := mkMask [FieldId.cf2],
    fieldv := mkVals [(FieldId.cf2, 2200)] }

/-- Example back vowel /u/ with a low F2. -/
def pdU : PhonemeDef :=
  { key := ['u'], isVowel := true, setMask := mkMask [FieldId.cf2],
    fieldv := mkVals [(FieldId.cf2, 900)] }

/-- Example velar stop /k/. -/
def pdK : PhonemeDef :=
  { key := ['k'], isStop := true, setMask := mkMask [FieldId.cf2, FieldId.cf3],
    fieldv := mkVals [(FieldId.cf2, 1400), (FieldId.cf3, 2300)] }

/-- Example alveolar stop /t/. -/
def pdT : PhonemeDef :=
  { key := ['t'], isStop := true, setMask := mkMask [FieldId.cf2, FieldId.pf2],
    fieldv := mkVals [(FieldId.cf2, 1800), (FieldId.pf2, 1800)] }

/-- /a/ token with a typical vowel duration. -/
def tokA : Token := { tdef := some pdA, durationMs := 100 }

/-- /i/ token. -/
def tokI : Token := { tdef := some pdI, durationMs := 100 }

/-- /u/ token. -/
def tokU : Token := { tdef := some pdU, durationMs := 100 }

/-- /k/ token. -/
def tokK : Token := { tdef := some pdK, durationMs := 60 }

/-- /t/ token. -/
def tokT : Token := { tdef := some pdT, durationMs := 60 }

/-- A long non-micro-gap silence (a real pause). -/
def tokSil100 : Token := { silence := true, durationMs := 100 }

/-- A token that already violates the fade invariant on entry. -/
def tokBad : Token := { tdef := some pdA, durationMs := 5, fadeMs := 10 }

/-- Boundary-smoothing pack with a vowel-to-stop minimum fade of 20 ms. -/
def langBS : LanguagePack := { boundarySmoothingVowelToStopFadeMs := 20 }

/-- Context for the C1 counterexample (speed 1). -/
def ctxC1 : PassContext := { speed := 1, pack := { lang := langBS } }

/-- Context for the C5 counterexample (speed 2). -/
def ctxC5 : PassContext := { speed := 2, pack := { lang := langBS } }

/-- Coarticulation pack: strength 1/2, velar pinch enabled, ungraduated. -/
def langCoart : LanguagePack :=
  { coarticulationStrength := 1/2,
    coarticulationAdjacencyMaxConsonants := 3,
    coarticulationLabialF2Locus := 900,
    coarticulationAlveolarF2Locus := 1700,
    coarticulationVelarF2Locus := 1300,
    coarticulationVelarPinchEnabled := true,
    coarticulationVelarPinchThreshold := 1700,
    coarticulationVelarPinchF2Scale := 9/10,
    coarticulationVelarPinchF3 := 2500 }

/-- Coarticulation context with `langCoart`. -/
def ctxCoart : PassContext := { pack := { lang := langCoart } }

/-- `langCoart` with graduated coarticulation switched on. -/
def langCoartGrad : LanguagePack := { langCoart with coarticulationGraduated := true }

/-- Coarticulation context with `langCoartGrad`. -/
def ctxCoartGrad : PassContext := { pack := { lang := langCoartGrad } }

/-- Pack with a 20 ms inter-segment gap configured. -/
def packGap20 : PackSet := { lang := { segmentBoundaryGapMs := 20 } }

/-- Environment whose collaborators all succeed: the conversion yields one
vowel token and the emitter reports one frame. -/
def envOk : Frontend.FrontendEnv :=
  { loadPackSet := fun _ _ => (true, packGap20, ""),
    normalizeLangTag := fun s => s,
    convertCore := fun _ _ _ _ _ _ => (true, [tokA], ""),
    emitFrames := fun _ _ base => [{ isNull := false, minDurationMs := 130, fadeMs := 5, userIndex := base }] }

/-- Environment whose pack loading and conversion both fail. -/
def envFail : Frontend.FrontendEnv :=
  { loadPackSet := fun _ _ => (false, {}, "boom"),
    normalizeLangTag := fun s => s,
    convertCore := fun _ _ _ _ _ _ => (false, [], "bad ipa"),
    emitFrames := fun _ _ _ => [] }

/-- A handle that already has a pack loaded and has emitted speech. -/
def hSpeech : Frontend.HandleState :=
  { packLoaded := true, pack := packGap20, streamHasSpeech := true }

/-- A handle that has a pack loaded but has not yet emitted speech. -/
def hFresh : Frontend.HandleState := { packLoaded := true, pack := packGap20 }

/-- The handle state produced by a successful `setLanguage "en"` on
`hSpeech` under `envOk`. -/
def hAfter : Frontend.HandleState :=
  { packDir := "", pack := packGap20, packLoaded := true, langTag := "en",
    lastError := "", streamHasSpeech := false }

/-! ### Generic facts about the in-place pass loop -/

theorem getElem?_some_lt {l : List Token} {n : Nat} {a : Token} (h : l[n]? = some a) :
    n < l.length := by
  by_contra hn
  rw [List.getElem?_eq_none (Nat.le_of_not_lt hn)] at h
  exact Option.noConfusion h

theorem getElem?_of_lt {l : List Token} {n : Nat} (h : n < l.length) :
    ∃ a, l[n]? = some a := by
  rw [List.getElem?_eq_getElem h]
  exact ⟨_, rfl⟩

/-- Indices below the loop's cursor are never touched again. -/
theorem passLoop_getElem?_of_lt (step : List Token → Nat → Token → Token) :
    ∀ (fuel i : Nat) (st : List Token) (k : Nat), k < i →
      (passLoop step fuel i st)[k]? = st[k]? := by
  intro fuel
  induction fuel with
  | zero => intro i st k _; rfl
  | succ n ih =>
    intro i st k hk
    cases hsi : st[i]? with
    | none => simp [passLoop, hsi]
    | some cur =>
      simp only [passLoop, hsi]
      rw [ih (i + 1) _ k (Nat.lt_succ_of_lt hk), List.getElem?_set_ne (Nat.ne_of_gt hk)]

/-- Running the loop from index `i` over a state that agrees with the
original vector `ts` (exactly below `i`, up to `R` everywhere): each visited
index `k` ends up holding `step st' k cur`, where `cur` is the original token
at `k` and `st'` is some state that still agrees with `ts` up to `R` and
equals `ts` from `k` on.  This captures the C++ in-place mutation exactly:
what the iteration at `k` reads from earlier tokens may already be mutated,
but only in the components `R` allows. -/
theorem passLoop_reaches (step : List Token → Nat → Token → Token) (R : Token → Token → Prop)
    (hstep : ∀ st i cur, R (step st i cur) cur) (ts : List Token) :
    ∀ (fuel i : Nat) (st : List Token), ListAgree R st ts →
      (∀ j : Nat, i ≤ j → st[j]? = ts[j]?) →
      ∀ (k : Nat) (cur : Token), i ≤ k → k < i + fuel → ts[k]? = some cur →
        ∃ st', ListAgree R st' ts ∧ (∀ j : Nat, k ≤ j → st'[j]? = ts[j]?) ∧
          (passLoop step fuel i st)[k]? = some (step st' k cur) := by
  intro fuel
  induction fuel with
  | zero => intro i st _ _ k cur hik hk _; omega
  | succ n ih =>
    intro i st hagree hsuf k cur hik hk hcur
    have hklen : k < ts.length := getElem?_some_lt hcur
    have hilen : i < ts.length := Nat.lt_of_le_of_lt hik hklen
    obtain ⟨curI, hcurI⟩ := getElem?_of_lt hilen
    have hsti : st[i]? = some curI := by rw [hsuf i (Nat.le_refl i)]; exact hcurI
    simp only [passLoop, hsti]
    by_cases hk0 : k = i
    · subst hk0
      have hcc : curI = cur := by
        rw [hcurI] at hcur
        exact Option.some.inj hcur
      subst hcc
      refine ⟨st, hagree, fun j hj => hsuf j hj, ?_⟩
      rw [passLoop_getElem?_of_lt step n (k + 1) _ k (Nat.lt_succ_self k)]
      rw [List.getElem?_set_eq_of_lt]
      rw [hagree.1]
      exact hklen
    · have hik' : i + 1 ≤ k := Nat.lt_of_le_of_ne hik (fun he => hk0 he.symm)
      apply ih (i + 1) (st.set i (step st i curI)) ?_ ?_ k cur hik' (by omega) hcur
      · constructor
        · rw [List.length_set]; exact hagree.1
        · intro j a b hja hjb
          by_cases hji : j = i
          · subst hji
            have hlen : j < st.length := by rw [hagree.1]; exact hilen
            rw [List.getElem?_set_eq_of_lt _ hlen] at hja
            have ha : a = step st j curI := (Option.some.inj hja).symm
            have hb : b = curI := by
              rw [hcurI] at hjb
              exact (Option.some.inj hjb).symm
            rw [ha, hb]
            exact hstep st j curI
          · rw [List.getElem?_set_ne (fun he => hji he.symm)] at hja
            exact hagree.2 j a b hja hjb
      · intro j hj
        rw [List.getElem?_set_ne (by omega)]
        exact hsuf j (by omega)

/-- `passLoop_reaches` at the loop's actual starting configuration. -/
theorem passLoop_run (step : List Token → Nat → Token → Token) (R : Token → Token → Prop)
    (hrefl : ∀ a, R a a) (hstep : ∀ st i cur, R (step st i cur) cur)
    (ts : List Token) (k : Nat) (cur : Token) (hcur : ts[k]? = some cur) :
    ∃ st', ListAgree R st' ts ∧ (∀ j : Nat, k ≤ j → st'[j]? = ts[j]?) ∧
      (passLoop step ts.length 0 ts)[k]? = some (step st' k cur) := by
  have hklen : k < ts.length := getElem?_some_lt hcur
  apply passLoop_reaches step R hstep ts ts.length 0 ts ?_ (fun j _ => rfl) k cur
    (Nat.zero_le k) (by omega) hcur
  constructor
  · rfl
  · intro j a b hja hjb
    have : a = b := Option.some.inj (hja.symm.trans hjb)
    rw [this]
    exact hrefl b

/-- If one loop iteration preserves a per-token predicate, the whole loop does. -/
theorem passLoop_preserves (step : List Token → Nat → Token → Token) (P : Token → Prop)
    (hstep : ∀ st i cur, (∀ t ∈ st, P t) → cur ∈ st → P (step st i cur)) :
    ∀ (fuel i : Nat) (st : List Token), (∀ t ∈ st, P t) →
      ∀ t ∈ passLoop step fuel i st, P t := by
  intro fuel
  induction fuel with
  | zero => intro i st hP t ht; exact hP t ht
  | succ n ih =>
    intro i st hP t ht
    cases hsi : st[i]? with
    | none => simp only [passLoop, hsi] at ht; exact hP t ht
    | some cur =>
      simp only [passLoop, hsi] at ht
      refine ih (i + 1) _ ?_ t ht
      intro u hu
      rcases List.mem_or_eq_of_mem_set hu with h | h
      · exact hP u h
      · rw [h]
        exact hstep st i cur hP (List.getElem?_mem hsi)

theorem ListAgree_none {R : Token → Token → Prop} {st ts : List Token}
    (hL : ListAgree R st ts) (j : Nat) (h : st[j]? = none) : ts[j]? = none := by
  apply List.getElem?_eq_none
  rw [← hL.1]
  by_contra hn
  obtain ⟨a, ha⟩ := getElem?_of_lt (Nat.lt_of_not_le hn)
  rw [h] at ha
  exact Option.noConfusion ha

theorem ListAgree_some {R : Token → Token → Prop} {st ts : List Token}
    (hL : ListAgree R st ts) {j : Nat} {a : Token} (h : st[j]? = some a) :
    ∃ b, ts[j]? = some b ∧ R a b := by
  have hlt : j < ts.length := by rw [← hL.1]; exact getElem?_some_lt h
  obtain ⟨b, hb⟩ := getElem?_of_lt hlt
  exact ⟨b, hb, hL.2 j a b h hb⟩

/-! ### Boundary smoothing: congruence under `BsAgree` and the clamp facts -/

namespace BoundarySmoothing

theorem bsAgree_refl (a : Token) : BsAgree a a :=
  ⟨rfl, rfl, rfl, rfl, rfl, rfl, rfl, rfl, rfl, fun _ => rfl⟩

theorem tokIsSilenceOrMissing_congr {a b : Token} (h : BsAgree a b) :
    tokIsSilenceOrMissing a = tokIsSilenceOrMissing b := by
  unfold tokIsSilenceOrMissing
  rw [h.silence, h.tdef]

theorem tokIsVowelLike_congr {a b : Token} (h : BsAgree a b) :
    tokIsVowelLike a = tokIsVowelLike b := by
  unfold tokIsVowelLike tokIsVowel tokIsSemivowel
  rw [h.tdef]

theorem tokIsStopLike_congr {a b : Token} (h : BsAgree a b) :
    tokIsStopLike a = tokIsStopLike b := by
  unfold tokIsStopLike
  rw [h.tdef, h.silence, h.postStopAspiration]

theorem tokIsFricativeLike_congr {a b : Token} (h : BsAgree a b) :
    tokIsFricativeLike a = tokIsFricativeLike b := by
  unfold tokIsFricativeLike
  rw [h.tdef, h.silence, h.setMask, h.fieldv]

theorem stopsPrevSearch_congr {a b : Token} (h : BsAgree a b) (m : ℚ) :
    stopsPrevSearch a m = stopsPrevSearch b m := by
  unfold stopsPrevSearch
  rw [h.silence, h.preStopGap, h.clusterGap, h.vowelHiatusGap]
  by_cases hs : b.silence = true
  · have hdur : a.durationMs = b.durationMs := by
      apply h.durationMs
      unfold tokIsSilenceOrMissing
      rw [h.silence, hs, Bool.true_or]
    rw [hdur]
  · rw [Bool.not_eq_true] at hs
    rw [hs]
    simp

theorem findPrevRealFrom_congr {st ts : List Token} (hL : ListAgree BsAgree st ts) (m : ℚ) :
    ∀ j, findPrevRealFrom st m j = findPrevRealFrom ts m j := by
  intro j
  induction j with
  | zero =>
    cases hsj : st[0]? with
    | none => simp [findPrevRealFrom, hsj, ListAgree_none hL 0 hsj]
    | some a =>
      obtain ⟨b, hb, hab⟩ := ListAgree_some hL hsj
      simp only [findPrevRealFrom, hsj, hb, tokIsSilenceOrMissing_congr hab]
  | succ n ihn =>
    cases hsj : st[n + 1]? with
    | none => simp [findPrevRealFrom, hsj, ListAgree_none hL _ hsj]
    | some a =>
      obtain ⟨b, hb, hab⟩ := ListAgree_some hL hsj
      simp only [findPrevRealFrom, hsj, hb, tokIsSilenceOrMissing_congr hab,
        stopsPrevSearch_congr hab, ihn]

theorem findPrevReal_congr {st ts : List Token} (hL : ListAgree BsAgree st ts)
    (idxBefore : ℤ) (m : ℚ) : findPrevReal st idxBefore m = findPrevReal ts idxBefore m := by
  unfold findPrevReal
  split
  · rfl
  · exact findPrevRealFrom_congr hL m _

theorem smooth1_congr {st ts : List Token} (hL : ListAgree BsAgree st ts)
    (v2s s2v v2f : ℚ) (i : Nat) (cur : Token) :
    smooth1 v2s s2v v2f st i cur = smooth1 v2s s2v v2f ts i cur := by
  unfold smooth1
  by_cases hsil : tokIsSilenceOrMissing cur = true
  · simp [hsil]
  · rw [Bool.not_eq_true] at hsil
    simp only [hsil, Bool.false_eq_true, if_false]
    rw [findPrevReal_congr hL]
    cases hp : findPrevReal ts ((i : ℤ) - 1) 60 with
    | none => rfl
    | some p =>
      dsimp only
      cases hsp : st[p]? with
      | none => rw [ListAgree_none hL p hsp]
      | some prev =>
        obtain ⟨prevb, hpb, hab⟩ := ListAgree_some hL hsp
        rw [hpb]
        simp only [tokIsVowelLike_congr hab, tokIsStopLike_congr hab]

/-- The update of a single boundary-smoothing iteration is the identity or a
fade-raise followed by the clamp (and the latter only on non-silence tokens). -/
theorem smooth1_cases (v2s s2v v2f : ℚ) (st : List Token) (i : Nat) (cur : Token) :
    smooth1 v2s s2v v2f st i cur = cur ∨
      (tokIsSilenceOrMissing cur = false ∧
        ∃ f, smooth1 v2s s2v v2f st i cur = clampFadeToDuration { cur with fadeMs := f }) := by
  unfold smooth1
  by_cases hsil : tokIsSilenceOrMissing cur = true
  · simp [hsil]
  · rw [Bool.not_eq_true] at hsil
    simp only [hsil, Bool.false_eq_true, if_false]
    cases findPrevReal st ((i : ℤ) - 1) 60 with
    | none => exact Or.inl rfl
    | some p =>
      dsimp only
      cases st[p]? with
      | none => exact Or.inl rfl
      | some prev =>
        dsimp only
        split_ifs with h1 h2 h3
        · exact Or.inr ⟨trivial, _, rfl⟩
        · exact Or.inr ⟨trivial, _, rfl⟩
        · exact Or.inr ⟨trivial, _, rfl⟩
        · exact Or.inl rfl

theorem clamp_bsAgree (cur : Token) (f : ℚ) (h : tokIsSilenceOrMissing cur = false) :
    BsAgree (clampFadeToDuration { cur with fadeMs := f }) cur := by
  refine ⟨rfl, rfl, rfl, rfl, rfl, rfl, rfl, rfl, rfl, ?_⟩
  intro hx
  have hx' : tokIsSilenceOrMissing cur = true := hx
  rw [hx'] at h
  exact Bool.noConfusion h

theorem smooth1_bsAgree (v2s s2v v2f : ℚ) (st : List Token) (i : Nat) (cur : Token) :
    BsAgree (smooth1 v2s s2v v2f st i cur) cur := by
  rcases smooth1_cases v2s s2v v2f st i cur with h | ⟨hsil, f, h⟩
  · rw [h]; exact bsAgree_refl cur
  · rw [h]; exact clamp_bsAgree cur f hsil

theorem clampFadeToDuration_inv (t : Token) :
    0 ≤ (clampFadeToDuration t).fadeMs ∧
      (clampFadeToDuration t).fadeMs ≤ (clampFadeToDuration t).durationMs := by
  unfold clampFadeToDuration
  dsimp only
  constructor <;> split_ifs <;> linarith

end BoundarySmoothing

/-! ### Boundary smoothing: main characterisation and claims C1, C5 -/

namespace BoundarySmoothing

/-- What the pass leaves at index `i`: `smooth1` evaluated against the
*original* vector.  This is where the in-place mutation is discharged — the
pass never changes any component of other tokens that `smooth1` reads. -/
theorem runBoundarySmoothing_getElem (ctx : PassContext) (tokens : List Token)
    (hen : ctx.pack.lang.boundarySmoothingEnabled = true)
    (hlen : 2 ≤ tokens.length) (i : Nat) (cur : Token) (hi : tokens[i]? = some cur) :
    (runBoundarySmoothing ctx tokens)[i]? =
      some (smooth1
        ((max 0 ctx.pack.lang.boundarySmoothingVowelToStopFadeMs) /
          (if 0 < ctx.speed then ctx.speed else 1))
        ((max 0 ctx.pack.lang.boundarySmoothingStopToVowelFadeMs) /
          (if 0 < ctx.speed then ctx.speed else 1))
        ((max 0 ctx.pack.lang.boundarySmoothingVowelToFricFadeMs) /
          (if 0 < ctx.speed then ctx.speed else 1))
        tokens i cur) := by
  unfold runBoundarySmoothing
  dsimp only
  rw [hen]
  rw [if_neg (by simp : ¬ (true = false))]
  rw [if_neg (by omega : ¬ tokens.length < 2)]
  obtain ⟨st2, hag, hsuf, hres⟩ := passLoop_run
    (smooth1
      ((max 0 ctx.pack.lang.boundarySmoothingVowelToStopFadeMs) /
        (if 0 < ctx.speed then ctx.speed else 1))
      ((max 0 ctx.pack.lang.boundarySmoothingStopToVowelFadeMs) /
        (if 0 < ctx.speed then ctx.speed else 1))
      ((max 0 ctx.pack.lang.boundarySmoothingVowelToFricFadeMs) /
        (if 0 < ctx.speed then ctx.speed else 1)))
    BsAgree bsAgree_refl (smooth1_bsAgree _ _ _) tokens i cur hi
  rw [hres, smooth1_congr hag]

end BoundarySmoothing

/-- C1 — counterexample.  The claim asserts `0 ≤ fadeMs ≤ durationMs` for
*every* token returned by the pass, including tokens whose fade the pass did
not raise.  `tokBad` (fade 10, duration 5) follows a long real pause, so no
category rule fires, `clampFadeToDuration` is never applied to it, and the
returned vector still violates the bound. -/
theorem c1_counterexample :
    ¬ (∀ t ∈ BoundarySmoothing.runBoundarySmoothing ctxC1 [tokSil100, tokBad],
        0 ≤ t.fadeMs ∧ t.fadeMs ≤ t.durationMs) := by
  decide

/-- C1 (amended): the boundary-smoothing pass *preserves*
`0 ≤ fadeMs ≤ durationMs` — if every input token satisfies the bound then so
does every output token (tokens the pass touches are re-clamped; untouched
tokens keep the bound they came in with). -/
theorem c1_fade_invariant_preserved (ctx : PassContext) (tokens : List Token)
    (hinv : ∀ t ∈ tokens, 0 ≤ t.fadeMs ∧ t.fadeMs ≤ t.durationMs) :
    ∀ t ∈ BoundarySmoothing.runBoundarySmoothing ctx tokens,
      0 ≤ t.fadeMs ∧ t.fadeMs ≤ t.durationMs := by
  unfold BoundarySmoothing.runBoundarySmoothing
  dsimp only
  split
  · exact hinv
  · split
    · exact hinv
    · apply passLoop_preserves _ _ ?_ tokens.length 0 tokens hinv
      intro st i cur hP hmem
      rcases BoundarySmoothing.smooth1_cases _ _ _ st i cur with h | ⟨_, f, h⟩
      · rw [h]
        exact hP cur hmem
      · rw [h]
        exact BoundarySmoothing.clampFadeToDuration_inv _

/-- Witness for C1 (amended) at a concrete input that satisfies the bound. -/
theorem c1_witness :
    (∀ t ∈ [tokA, tokT], 0 ≤ t.fadeMs ∧ t.fadeMs ≤ t.durationMs) ∧
    (∀ t ∈ BoundarySmoothing.runBoundarySmoothing ctxC1 [tokA, tokT],
      0 ≤ t.fadeMs ∧ t.fadeMs ≤ t.durationMs) :=
  ⟨by decide, c1_fade_invariant_preserved ctxC1 [tokA, tokT] (by decide)⟩

/-- C5 — counterexample.  The pass raises the fade to the pack minimum
*scaled by 1/speed*, not to the pack minimum itself: at speed 2 with
`boundarySmoothingVowelToStopFadeMs = 20`, the vowel→stop rule raises the
stop's fade to 10, not 20. -/
theorem c5_counterexample :
    ((BoundarySmoothing.runBoundarySmoothing ctxC5 [tokA, tokT])[1]?).map Token.fadeMs
        = some 10 ∧
    ctxC5.pack.lang.boundarySmoothingVowelToStopFadeMs = 20 ∧
    ((BoundarySmoothing.runBoundarySmoothing ctxC5 [tokA, tokT])[1]?).map Token.fadeMs
        ≠ some 20 := by
  have h : (BoundarySmoothing.runBoundarySmoothing ctxC5 [tokA, tokT])[1]? =
      some { tokT with fadeMs := 10 } := by
    norm_num [BoundarySmoothing.runBoundarySmoothing, passLoop,
      BoundarySmoothing.smooth1, BoundarySmoothing.findPrevReal,
      BoundarySmoothing.findPrevRealFrom, BoundarySmoothing.stopsPrevSearch,
      BoundarySmoothing.tokIsSilenceOrMissing, BoundarySmoothing.tokIsVowelLike,
      BoundarySmoothing.tokIsVowel, BoundarySmoothing.tokIsSemivowel,
      BoundarySmoothing.tokIsStopLike, BoundarySmoothing.tokIsFricativeLike,
      BoundarySmoothing.clampFadeToDuration, ctxC5, langBS, tokA, tokT, pdA, pdT,
      mkMask, mkVals]
  rw [h]
  refine ⟨by norm_num, rfl, by norm_num⟩

/-- C5 (amended): for every non-silence token the pass finds the nearest
preceding non-silence token with `findPrevReal` (skipping inserted micro-gap
silences and silences of duration ≤ 60 ms), and when the predecessor/current
pair is vowel→stop, stop→vowel or vowel→fricative (in that priority order)
raises the current token's fade to the category minimum *scaled by the
effective speed* — `fadeMs` becomes `max fadeMs (max 0 packMin / speed)` —
and then clamps fade to duration.  Other tokens are returned unchanged. -/
theorem c5_boundary_rules (ctx : PassContext) (tokens : List Token) (i : Nat) (cur : Token)
    (hen : ctx.pack.lang.boundarySmoothingEnabled = true)
    (hlen : 2 ≤ tokens.length) (hi : tokens[i]? = some cur)
    (hsil : BoundarySmoothing.tokIsSilenceOrMissing cur = false) :
    (BoundarySmoothing.runBoundarySmoothing ctx tokens)[i]? =
      some (
        let sp := if 0 < ctx.speed then ctx.speed else 1
        let v2s := (max 0 ctx.pack.lang.boundarySmoothingVowelToStopFadeMs) / sp
        let s2v := (max 0 ctx.pack.lang.boundarySmoothingStopToVowelFadeMs) / sp
        let v2f := (max 0 ctx.pack.lang.boundarySmoothingVowelToFricFadeMs) / sp
        match BoundarySmoothing.findPrevReal tokens ((i : ℤ) - 1) 60 with
        | none => cur
        | some p =>
          match tokens[p]? with
          | none => cur
          | some prev =>
            if 0 < v2s ∧ BoundarySmoothing.tokIsVowelLike prev = true ∧
                BoundarySmoothing.tokIsStopLike cur = true then
              BoundarySmoothing.clampFadeToDuration { cur with fadeMs := max cur.fadeMs v2s }
            else if 0 < s2v ∧ BoundarySmoothing.tokIsStopLike prev = true ∧
                BoundarySmoothing.tokIsVowelLike cur = true then
              BoundarySmoothing.clampFadeToDuration { cur with fadeMs := max cur.fadeMs s2v }
            else if 0 < v2f ∧ BoundarySmoothing.tokIsVowelLike prev = true ∧
                BoundarySmoothing.tokIsFricativeLike cur = true then
              BoundarySmoothing.clampFadeToDuration { cur with fadeMs := max cur.fadeMs v2f }
            else cur) := by
  rw [BoundarySmoothing.runBoundarySmoothing_getElem ctx tokens hen hlen i cur hi]
  unfold BoundarySmoothing.smooth1
  rw [hsil]
  rw [if_neg (by simp : ¬ (false = true))]

/-- Witness for C5 (amended) at the concrete counterexample input. -/
theorem c5_witness :
    (BoundarySmoothing.runBoundarySmoothing ctxC5 [tokA, tokT])[1]? =
      some (
        let sp := if 0 < ctxC5.speed then ctxC5.speed else 1
        let v2s := (max 0 ctxC5.pack.lang.boundarySmoothingVowelToStopFadeMs) / sp
        let s2v := (max 0 ctxC5.pack.lang.boundarySmoothingStopToVowelFadeMs) / sp
        let v2f := (max 0 ctxC5.pack.lang.boundarySmoothingVowelToFricFadeMs) / sp
        match BoundarySmoothing.findPrevReal [tokA, tokT] ((1 : ℤ) - 1) 60 with
        | none => tokT
        | some p =>
          match [tokA, tokT][p]? with
          | none => tokT
          | some prev =>
            if 0 < v2s ∧ BoundarySmoothing.tokIsVowelLike prev = true ∧
                BoundarySmoothing.tokIsStopLike tokT = true then
              BoundarySmoothing.clampFadeToDuration { tokT with fadeMs := max tokT.fadeMs v2s }
            else if 0 < s2v ∧ BoundarySmoothing.tokIsStopLike prev = true ∧
                BoundarySmoothing.tokIsVowelLike tokT = true then
              BoundarySmoothing.clampFadeToDuration { tokT with fadeMs := max tokT.fadeMs s2v }
            else if 0 < v2f ∧ BoundarySmoothing.tokIsVowelLike prev = true ∧
                BoundarySmoothing.tokIsFricativeLike tokT = true then
              BoundarySmoothing.clampFadeToDuration { tokT with fadeMs := max tokT.fadeMs v2f }
            else tokT) :=
  c5_boundary_rules ctxC5 [tokA, tokT] 1 tokT rfl (by decide) rfl (by decide)

/-! ### Coarticulation: congruence under `CaAgree`, projections, field access -/

namespace Coarticulation

theorem caAgree_refl (a : Token) : CaAgree a a := ⟨rfl, rfl, rfl⟩

theorem isSilenceOrMissing_congr {a b : Token} (h : CaAgree a b) :
    isSilenceOrMissing a = isSilenceOrMissing b := by
  unfold isSilenceOrMissing
  rw [h.silence, h.tdef]

theorem isVowelLike_congr {a b : Token} (h : CaAgree a b) :
    isVowelLike a = isVowelLike b := by
  unfold isVowelLike isVowel isSemivowel
  rw [h.tdef]

theorem findNearestVowelLeftAux_congr {st ts : List Token} (hL : ListAgree CaAgree st ts)
    (cw : Bool) (mc : Nat) :
    ∀ j cons, findNearestVowelLeftAux st cw mc j cons = findNearestVowelLeftAux ts cw mc j cons := by
  intro j
  induction j with
  | zero => intro cons; rfl
  | succ n ih =>
    intro cons
    cases hsj : st[n]? with
    | none => simp [findNearestVowelLeftAux, hsj, ListAgree_none hL _ hsj]
    | some a =>
      obtain ⟨b, hb, hab⟩ := ListAgree_some hL hsj
      simp only [findNearestVowelLeftAux, hsj, hb, isSilenceOrMissing_congr hab,
        isVowelLike_congr hab, hab.wordStart, ih]

theorem findNearestVowelLeft_congr {st ts : List Token} (hL : ListAgree CaAgree st ts)
    (i : Nat) (cw : Bool) (mc : Nat) :
    findNearestVowelLeft st i cw mc = findNearestVowelLeft ts i cw mc :=
  findNearestVowelLeftAux_congr hL cw mc i 0

theorem findNearestVowelRightAux_congr {st ts : List Token} (hL : ListAgree CaAgree st ts)
    (cw : Bool) (mc : Nat) :
    ∀ fuel j cons,
      findNearestVowelRightAux st cw mc fuel j cons = findNearestVowelRightAux ts cw mc fuel j cons := by
  intro fuel
  induction fuel with
  | zero => intro j cons; rfl
  | succ n ih =>
    intro j cons
    cases hsj : st[j]? with
    | none => simp [findNearestVowelRightAux, hsj, ListAgree_none hL _ hsj]
    | some a =>
      obtain ⟨b, hb, hab⟩ := ListAgree_some hL hsj
      simp only [findNearestVowelRightAux, hsj, hb, isSilenceOrMissing_congr hab,
        isVowelLike_congr hab, hab.wordStart, ih]

theorem findNearestVowelRight_congr {st ts : List Token} (hL : ListAgree CaAgree st ts)
    (i : Nat) (cw : Bool) (mc : Nat) :
    findNearestVowelRight st i cw mc = findNearestVowelRight ts i cw mc := by
  unfold findNearestVowelRight
  rw [hL.1]
  exact findNearestVowelRightAux_congr hL cw mc ts.length (i + 1) 0

/-- A right-hand vowel hit lies at or after the scan's starting index. -/
theorem findNearestVowelRightAux_idx_ge (tokens : List Token) (cw : Bool) (mc : Nat) :
    ∀ (fuel j cons r ca : Nat),
      findNearestVowelRightAux tokens cw mc fuel j cons = ⟨some r, ca⟩ → j ≤ r := by
  intro fuel
  induction fuel with
  | zero =>
    intro j cons r ca h
    simp only [findNearestVowelRightAux] at h
    rw [show (({} : VowelHit) = VowelHit.mk none 0) from rfl] at h
    simp [VowelHit.mk.injEq] at h
  | succ n ih =>
    intro j cons r ca h
    rw [findNearestVowelRightAux] at h
    cases hsj : tokens[j]? with
    | none =>
      rw [hsj] at h
      simp [VowelHit.mk.injEq] at h
    | some next =>
      rw [hsj] at h
      dsimp only at h
      split_ifs at h with h1 h2 h3 h4
      · simp [VowelHit.mk.injEq] at h
      · simp [VowelHit.mk.injEq] at h
      · simp only [VowelHit.mk.injEq, Option.some.injEq] at h
        omega
      · simp [VowelHit.mk.injEq] at h
      · have := ih (j + 1) (cons + 1) r ca h
        omega

/-- A right-hand vowel hit lies strictly to the right of the consonant. -/
theorem findNearestVowelRight_idx_ge {tokens : List Token} {i : Nat} {cw : Bool} {mc : Nat}
    {r ca : Nat} (h : findNearestVowelRight tokens i cw mc = ⟨some r, ca⟩) : i + 1 ≤ r :=
  findNearestVowelRightAux_idx_ge tokens cw mc tokens.length (i + 1) 0 r ca h

theorem hitWeight_nonneg (h : VowelHit) : 0 ≤ hitWeight h := by
  unfold hitWeight
  cases h.tokIdx with
  | none => exact le_refl 0
  | some _ => positivity

theorem hitWeight_le_one (h : VowelHit) : hitWeight h ≤ 1 := by
  unfold hitWeight
  cases h.tokIdx with
  | none => exact zero_le_one
  | some _ =>
    rw [div_le_one (by positivity)]
    have : (0 : ℚ) ≤ (h.consonantsAway : ℚ) := Nat.cast_nonneg _
    linarith

theorem rclamp_eq_self {v : ℚ} (h0 : 0 ≤ v) (h1 : v ≤ 1) : rclamp v 0 1 = v := by
  unfold rclamp
  rw [max_eq_right h0, min_eq_right h1]

theorem rclamp_nonneg (v : ℚ) : 0 ≤ rclamp v 0 1 := by
  unfold rclamp
  exact le_min zero_le_one (le_max_left 0 v)

theorem rclamp_le_one (v : ℚ) : rclamp v 0 1 ≤ 1 := min_le_left 1 _

theorem getField_setField_self (t : Token) (id : FieldId) (v : ℚ) :
    getField (setField t id v) id = v := by
  simp [getField, setField, hasField]

theorem getField_setField_ne (t : Token) (id id' : FieldId) (v : ℚ) (h : id' ≠ id) :
    getField (setField t id v) id' = getField t id' := by
  simp [getField, setField, hasField, h]

theorem getField_blendToward_self (t : Token) (id : FieldId) (tar s : ℚ) :
    getField (blendToward t id tar s) id = blendVal (getField t id) tar s :=
  getField_setField_self t id _

theorem getField_blendToward_ne (t : Token) (id id' : FieldId) (tar s : ℚ) (h : id' ≠ id) :
    getField (blendToward t id tar s) id' = getField t id' :=
  getField_setField_ne t id id' _ h

theorem applyLocusShift_caAgree (c : Token) (id : FieldId) (lo str : ℚ) (adj : Option Token) :
    CaAgree (applyLocusShift c id lo str adj) c := ⟨rfl, rfl, rfl⟩

theorem applyVelarPinch_tdef (c nv : Token) (lang : LanguagePack) (str : ℚ) :
    (applyVelarPinch c nv lang str).tdef = c.tdef := by
  unfold applyVelarPinch
  dsimp only
  split_ifs <;> rfl

theorem applyVelarPinch_silence (c nv : Token) (lang : LanguagePack) (str : ℚ) :
    (applyVelarPinch c nv lang str).silence = c.silence := by
  unfold applyVelarPinch
  dsimp only
  split_ifs <;> rfl

theorem applyVelarPinch_wordStart (c nv : Token) (lang : LanguagePack) (str : ℚ) :
    (applyVelarPinch c nv lang str).wordStart = c.wordStart := by
  unfold applyVelarPinch
  dsimp only
  split_ifs <;> rfl

theorem fadeIntoConsonant_tdef (lang : LanguagePack) (w e : ℚ) (c1 : Token) :
    (fadeIntoConsonant lang w e c1).tdef = c1.tdef := by
  unfold fadeIntoConsonant
  split <;> rfl

theorem fadeIntoConsonant_silence (lang : LanguagePack) (w e : ℚ) (c1 : Token) :
    (fadeIntoConsonant lang w e c1).silence = c1.silence := by
  unfold fadeIntoConsonant
  split <;> rfl

theorem fadeIntoConsonant_wordStart (lang : LanguagePack) (w e : ℚ) (c1 : Token) :
    (fadeIntoConsonant lang w e c1).wordStart = c1.wordStart := by
  unfold fadeIntoConsonant
  split <;> rfl

/-- `fadeIntoConsonant` never changes a field value or mask bit. -/
theorem getField_fadeIntoConsonant (lang : LanguagePack) (w e : ℚ) (c1 : Token) (id : FieldId) :
    getField (fadeIntoConsonant lang w e c1) id = getField c1 id := by
  unfold fadeIntoConsonant
  split <;> rfl

theorem coartStep_caAgree (lang : LanguagePack) (s e : ℚ) (st : List Token) (i : Nat)
    (c : Token) : CaAgree (coartStep lang s e st i c) c := by
  unfold coartStep
  dsimp only
  refine ⟨?_, ?_, ?_⟩ <;>
    (repeat' split) <;>
      simp [fadeIntoConsonant_tdef, fadeIntoConsonant_silence, fadeIntoConsonant_wordStart,
        applyVelarPinch_tdef, applyVelarPinch_silence, applyVelarPinch_wordStart,
        applyLocusShift, setField]

/-- The locus base collapses to the consonant's own formant when that
formant is positive. -/
theorem locusBase_of_pos (c : Token) (id : FieldId) (lo : ℚ) (adj : Option Token)
    (h : 0 < getField c id) : locusBase c id lo adj = getField c id := by
  unfold locusBase
  rw [if_neg (not_le.mpr h)]

theorem getField_applyLocusShift_self (c : Token) (id : FieldId) (lo s : ℚ)
    (adj : Option Token) :
    getField (applyLocusShift c id lo s adj) id =
      locusBase c id lo adj + (lo - locusBase c id lo adj) * s :=
  getField_setField_self c id _

theorem getField_applyLocusShift_ne (c : Token) (id id' : FieldId) (lo s : ℚ)
    (adj : Option Token) (h : id' ≠ id) :
    getField (applyLocusShift c id lo s adj) id' = getField c id' :=
  getField_setField_ne c id id' _ h

/-- The main reach lemma for the coarticulation pass: the token at `i` of
the result is `coartStep` evaluated at `i` against *some* state that agrees
with the original vector in every component the searches read and equals it
from `i` on. -/
theorem runCoarticulation_getElem (ctx : PassContext) (tokens : List Token)
    (hen : ctx.pack.lang.coarticulationEnabled = true)
    (hstr : 0 < rclamp ctx.pack.lang.coarticulationStrength 0 1)
    (i : Nat) (cur : Token) (hi : tokens[i]? = some cur) :
    ∃ st', ListAgree CaAgree st' tokens ∧ (∀ j : Nat, i ≤ j → st'[j]? = tokens[j]?) ∧
      (runCoarticulation ctx tokens)[i]? =
        some (coartStep ctx.pack.lang (rclamp ctx.pack.lang.coarticulationStrength 0 1)
          (rclamp ctx.pack.lang.coarticulationTransitionExtent 0 1) st' i cur) := by
  unfold runCoarticulation
  dsimp only
  rw [hen]
  rw [if_neg (by simp : ¬ (true = false))]
  rw [if_neg (not_le.mpr hstr)]
  exact passLoop_run _ CaAgree caAgree_refl
    (fun st j t => coartStep_caAgree _ _ _ st j t) tokens i cur hi

/-- In the situation of the velar-pinch special case — velar place, pinch
enabled, a vowel-like token immediately to the right (zero consonants away) —
`coartStep` computes `applyVelarPinch` against that vowel with blend factor
equal to the incoming (already clamped) strength, and its field values are
exactly the pinch's. -/
theorem coartStep_velarPinch (lang : LanguagePack) (strength extent : ℚ)
    (st : List Token) (i : Nat) (c : Token) (d : PhonemeDef) (rj : Nat) (v : Token)
    (hsil : c.silence = false) (hdef : c.tdef = some d) (hnv : d.isVowel = false)
    (hplace : getPlaceOfArticulation d.key = PlaceOfArticulation.Velar)
    (hpe : lang.coarticulationVelarPinchEnabled = true)
    (hr : findNearestVowelRight st i false (adjMaxCons lang) = ⟨some rj, 0⟩)
    (hrv : st[rj]? = some v) (id : FieldId) :
    getField (coartStep lang strength extent st i c) id =
      getField (applyVelarPinch c v lang strength) id := by
  have hsm : isSilenceOrMissing c = false := by
    unfold isSilenceOrMissing
    rw [hsil, hdef]
    rfl
  have hcons : isConsonant c = true := by
    unfold isConsonant
    rw [hdef]
    dsimp only
    rw [hnv]
    rfl
  have hw1 : (if lang.coarticulationGraduated = true
      then max (hitWeight (findNearestVowelLeft st i false (adjMaxCons lang)))
        (hitWeight (⟨some rj, 0⟩ : VowelHit))
      else 1) = 1 := by
    split
    · rw [show hitWeight (⟨some rj, 0⟩ : VowelHit) = 1 by norm_num [hitWeight]]
      exact max_eq_right (hitWeight_le_one _)
    · rfl
  simp only [coartStep, hsm, hcons, hdef, hplace, hpe, hr, hw1, Bool.false_eq_true,
    if_false, Bool.not_true, Bool.true_eq_false]
  rw [if_neg (by simp :
    ¬ (PlaceOfArticulation.Velar = PlaceOfArticulation.Unknown))]
  rw [if_neg (by rintro ⟨-, hle⟩; exact absurd hle (by norm_num))]
  rw [if_pos (by exact ⟨trivial, trivial, rfl, trivial⟩ :
    True ∧ True ∧ (some rj).isSome = true ∧ True)]
  rw [getField_fadeIntoConsonant, hrv]
  rw [show rclamp (1 : ℚ) 0 1 = 1 from rclamp_eq_self zero_le_one (le_refl 1), mul_one]

/-- Field values of `applyVelarPinch` on a front vowel (effective F2 at or
above the threshold) with a positive blend factor already in `[0,1]`. -/
theorem applyVelarPinch_fields (c v : Token) (lang : LanguagePack) (strength : ℚ)
    (h0 : 0 < strength) (h1 : strength ≤ 1)
    (hfront : lang.coarticulationVelarPinchThreshold ≤ pinchVowelF2 v) :
    getField (applyVelarPinch c v lang strength) FieldId.cf2 =
      blendVal (getField c FieldId.cf2)
        (pinchVowelF2 v * lang.coarticulationVelarPinchF2Scale) strength ∧
    getField (applyVelarPinch c v lang strength) FieldId.pf2 =
      blendVal (getField c FieldId.pf2)
        (pinchVowelF2 v * lang.coarticulationVelarPinchF2Scale) strength ∧
    (0 < lang.coarticulationVelarPinchF3 →
      getField (applyVelarPinch c v lang strength) FieldId.cf3 =
        blendVal (getField c FieldId.cf3) lang.coarticulationVelarPinchF3 strength ∧
      getField (applyVelarPinch c v lang strength) FieldId.pf3 =
        blendVal (getField c FieldId.pf3) lang.coarticulationVelarPinchF3 strength) := by
  unfold applyVelarPinch
  rw [rclamp_eq_self (le_of_lt h0) h1]
  rw [if_neg (not_le.mpr h0)]
  dsimp only
  rw [if_neg (not_lt.mpr hfront)]
  by_cases hf3 : 0 < lang.coarticulationVelarPinchF3
  · rw [if_pos hf3]
    refine ⟨?_, ?_, fun _ => ⟨?_, ?_⟩⟩
    · rw [getField_blendToward_ne _ _ _ _ _ (by decide),
        getField_blendToward_ne _ _ _ _ _ (by decide),
        getField_blendToward_ne _ _ _ _ _ (by decide),
        getField_blendToward_self]
    · rw [getField_blendToward_ne _ _ _ _ _ (by decide),
        getField_blendToward_ne _ _ _ _ _ (by decide),
        getField_blendToward_self,
        getField_blendToward_ne _ _ _ _ _ (by decide)]
    · rw [getField_blendToward_ne _ _ _ _ _ (by decide),
        getField_blendToward_self,
        getField_blendToward_ne _ _ _ _ _ (by decide),
        getField_blendToward_ne _ _ _ _ _ (by decide)]
    · rw [getField_blendToward_self,
        getField_blendToward_ne _ _ _ _ _ (by decide),
        getField_blendToward_ne _ _ _ _ _ (by decide),
        getField_blendToward_ne _ _ _ _ _ (by decide)]
  · rw [if_neg hf3]
    refine ⟨?_, ?_, fun h => absurd h hf3⟩
    · rw [getField_blendToward_ne _ _ _ _ _ (by decide), getField_blendToward_self]
    · rw [getField_blendToward_self, getField_blendToward_ne _ _ _ _ _ (by decide)]

/-- In the normal (non-pinch) situation, `coartStep` shifts cf2 and pf2
toward the place's F2 locus by `strength · rclamp w 0 1`, provided both
formants start positive (so the adjacent-vowel fallback is not consulted). -/
theorem coartStep_locusShift (lang : LanguagePack) (strength extent : ℚ)
    (st : List Token) (i : Nat) (c : Token) (d : PhonemeDef)
    (hsil : c.silence = false) (hdef : c.tdef = some d) (hnv : d.isVowel = false)
    (hpl : getPlaceOfArticulation d.key ≠ PlaceOfArticulation.Unknown)
    (hnp : ¬(getPlaceOfArticulation d.key = PlaceOfArticulation.Velar ∧
        lang.coarticulationVelarPinchEnabled = true ∧
        (findNearestVowelRight st i false (adjMaxCons lang)).tokIdx.isSome = true ∧
        (findNearestVowelRight st i false (adjMaxCons lang)).consonantsAway = 0))
    (hwpos : lang.coarticulationGraduated = true →
        0 < max (hitWeight (findNearestVowelLeft st i false (adjMaxCons lang)))
            (hitWeight (findNearestVowelRight st i false (adjMaxCons lang))))
    (hcf2 : 0 < getField c FieldId.cf2) (hpf2 : 0 < getField c FieldId.pf2) :
    getField (coartStep lang strength extent st i c) FieldId.cf2 =
      getField c FieldId.cf2 +
        (locusFor lang (getPlaceOfArticulation d.key) - getField c FieldId.cf2) *
          (strength * rclamp (if lang.coarticulationGraduated = true
              then max (hitWeight (findNearestVowelLeft st i false (adjMaxCons lang)))
                (hitWeight (findNearestVowelRight st i false (adjMaxCons lang)))
              else 1) 0 1) ∧
    getField (coartStep lang strength extent st i c) FieldId.pf2 =
      getField c FieldId.pf2 +
        (locusFor lang (getPlaceOfArticulation d.key) - getField c FieldId.pf2) *
          (strength * rclamp (if lang.coarticulationGraduated = true
              then max (hitWeight (findNearestVowelLeft st i false (adjMaxCons lang)))
                (hitWeight (findNearestVowelRight st i false (adjMaxCons lang)))
              else 1) 0 1) := by
  have hsm : isSilenceOrMissing c = false := by
    unfold isSilenceOrMissing
    rw [hsil, hdef]
    rfl
  have hcons : isConsonant c = true := by
    unfold isConsonant
    rw [hdef]
    dsimp only
    rw [hnv]
    rfl
  simp only [coartStep, hsm, hcons, hdef, Bool.false_eq_true, if_false, Bool.not_true,
    Bool.true_eq_false]
  rw [if_neg hpl]
  rw [if_neg (by
    rintro ⟨hg, hle⟩
    rw [if_pos hg] at hle
    exact absurd hle (not_le.mpr (hwpos hg)))]
  rw [if_neg hnp]
  constructor
  · rw [getField_fadeIntoConsonant,
      getField_applyLocusShift_ne _ _ _ _ _ _ (by decide),
      getField_applyLocusShift_self,
      locusBase_of_pos _ _ _ _ hcf2]
  · rw [getField_fadeIntoConsonant,
      getField_applyLocusShift_self,
      locusBase_of_pos _ _ _ _ (by
        rw [getField_applyLocusShift_ne _ _ _ _ _ _ (by decide)]
        exact hpf2),
      getField_applyLocusShift_ne _ _ _ _ _ _ (by decide)]

/-! ### Claims C2, C3, C4 -/

/-- C2 (amended): in the coarticulation pass (enabled, clamped strength
positive), a velar consonant receives the velar pinch only when velar pinch
is enabled and the rightward vowel search finds a vowel-like token zero
consonants away (immediately following); when that vowel's effective F2 is at
or above `velarPinchThreshold`, cf2 and pf2 are blended toward
`vowelF2 · velarPinchF2Scale` and (when `velarPinchF3 > 0`) cf3 and pf3
toward `velarPinchF3`, with blend factor equal to the effective
coarticulation strength (fields starting non-positive snap to the target
first).  A velar whose only front vowel neighbour is on the left gets the
normal locus shift instead. -/
theorem c2_velar_pinch (ctx : PassContext) (tokens : List Token) (i rj : Nat)
    (c v : Token) (d : PhonemeDef)
    (hen : ctx.pack.lang.coarticulationEnabled = true)
    (hstr : 0 < rclamp ctx.pack.lang.coarticulationStrength 0 1)
    (hpe : ctx.pack.lang.coarticulationVelarPinchEnabled = true)
    (hi : tokens[i]? = some c)
    (hsil : c.silence = false) (hdef : c.tdef = some d) (hnv : d.isVowel = false)
    (hplace : getPlaceOfArticulation d.key = PlaceOfArticulation.Velar)
    (hr : findNearestVowelRight tokens i false (adjMaxCons ctx.pack.lang) = ⟨some rj, 0⟩)
    (hrv : tokens[rj]? = some v)
    (hfront : ctx.pack.lang.coarticulationVelarPinchThreshold ≤ pinchVowelF2 v) :
    ∃ t, (runCoarticulation ctx tokens)[i]? = some t ∧
      getField t FieldId.cf2 =
        blendVal (getField c FieldId.cf2)
          (pinchVowelF2 v * ctx.pack.lang.coarticulationVelarPinchF2Scale)
          (rclamp ctx.pack.lang.coarticulationStrength 0 1) ∧
      getField t FieldId.pf2 =
        blendVal (getField c FieldId.pf2)
          (pinchVowelF2 v * ctx.pack.lang.coarticulationVelarPinchF2Scale)
          (rclamp ctx.pack.lang.coarticulationStrength 0 1) ∧
      (0 < ctx.pack.lang.coarticulationVelarPinchF3 →
        getField t FieldId.cf3 =
          blendVal (getField c FieldId.cf3) ctx.pack.lang.coarticulationVelarPinchF3
            (rclamp ctx.pack.lang.coarticulationStrength 0 1) ∧
        getField t FieldId.pf3 =
          blendVal (getField c FieldId.pf3) ctx.pack.lang.coarticulationVelarPinchF3
            (rclamp ctx.pack.lang.coarticulationStrength 0 1)) := by
  obtain ⟨st2, hag, hsuf, hres⟩ := runCoarticulation_getElem ctx tokens hen hstr i c hi
  have hr2 : findNearestVowelRight st2 i false (adjMaxCons ctx.pack.lang) = ⟨some rj, 0⟩ := by
    rw [findNearestVowelRight_congr hag]
    exact hr
  have hge : i + 1 ≤ rj := findNearestVowelRight_idx_ge hr
  have hrv2 : st2[rj]? = some v := by
    rw [hsuf rj (by omega)]
    exact hrv
  have hstep := fun id => coartStep_velarPinch ctx.pack.lang
    (rclamp ctx.pack.lang.coarticulationStrength 0 1)
    (rclamp ctx.pack.lang.coarticulationTransitionExtent 0 1)
    st2 i c d rj v hsil hdef hnv hplace hpe hr2 hrv2 id
  have hfields := applyVelarPinch_fields c v ctx.pack.lang
    (rclamp ctx.pack.lang.coarticulationStrength 0 1) hstr (rclamp_le_one _) hfront
  refine ⟨_, hres, ?_, ?_, fun h3 => ⟨?_, ?_⟩⟩
  · rw [hstep FieldId.cf2]
    exact hfields.1
  · rw [hstep FieldId.pf2]
    exact hfields.2.1
  · rw [hstep FieldId.cf3]
    exact (hfields.2.2 h3).1
  · rw [hstep FieldId.pf3]
    exact (hfields.2.2 h3).2

/-- Shared locus-shift characterisation of the pass (used for both the C3
and C4 claims). -/
theorem runCoarticulation_locusShift (ctx : PassContext) (tokens : List Token) (i : Nat)
    (c : Token) (d : PhonemeDef)
    (hen : ctx.pack.lang.coarticulationEnabled = true)
    (hstr : 0 < rclamp ctx.pack.lang.coarticulationStrength 0 1)
    (hi : tokens[i]? = some c)
    (hsil : c.silence = false) (hdef : c.tdef = some d) (hnv : d.isVowel = false)
    (hpl : getPlaceOfArticulation d.key ≠ PlaceOfArticulation.Unknown)
    (hnp : ¬(getPlaceOfArticulation d.key = PlaceOfArticulation.Velar ∧
        ctx.pack.lang.coarticulationVelarPinchEnabled = true ∧
        (findNearestVowelRight tokens i false (adjMaxCons ctx.pack.lang)).tokIdx.isSome = true ∧
        (findNearestVowelRight tokens i false (adjMaxCons ctx.pack.lang)).consonantsAway = 0))
    (hwpos : ctx.pack.lang.coarticulationGraduated = true →
        0 < max (hitWeight (findNearestVowelLeft tokens i false (adjMaxCons ctx.pack.lang)))
            (hitWeight (findNearestVowelRight tokens i false (adjMaxCons ctx.pack.lang))))
    (hcf2 : 0 < getField c FieldId.cf2) (hpf2 : 0 < getField c FieldId.pf2) :
    ∃ t, (runCoarticulation ctx tokens)[i]? = some t ∧
      getField t FieldId.cf2 =
        getField c FieldId.cf2 +
          (locusFor ctx.pack.lang (getPlaceOfArticulation d.key) - getField c FieldId.cf2) *
            (rclamp ctx.pack.lang.coarticulationStrength 0 1 *
              rclamp (if ctx.pack.lang.coarticulationGraduated = true
                then max (hitWeight (findNearestVowelLeft tokens i false (adjMaxCons ctx.pack.lang)))
                  (hitWeight (findNearestVowelRight tokens i false (adjMaxCons ctx.pack.lang)))
                else 1) 0 1) ∧
      getField t FieldId.pf2 =
        getField c FieldId.pf2 +
          (locusFor ctx.pack.lang (getPlaceOfArticulation d.key) - getField c FieldId.pf2) *
            (rclamp ctx.pack.lang.coarticulationStrength 0 1 *
              rclamp (if ctx.pack.lang.coarticulationGraduated = true
                then max (hitWeight (findNearestVowelLeft tokens i false (adjMaxCons ctx.pack.lang)))
                  (hitWeight (findNearestVowelRight tokens i false (adjMaxCons ctx.pack.lang)))
                else 1) 0 1) := by
  obtain ⟨st2, hag, hsuf, hres⟩ := runCoarticulation_getElem ctx tokens hen hstr i c hi
  have hLeq : findNearestVowelLeft st2 i false (adjMaxCons ctx.pack.lang) =
      findNearestVowelLeft tokens i false (adjMaxCons ctx.pack.lang) :=
    findNearestVowelLeft_congr hag i false _
  have hReq : findNearestVowelRight st2 i false (adjMaxCons ctx.pack.lang) =
      findNearestVowelRight tokens i false (adjMaxCons ctx.pack.lang) :=
    findNearestVowelRight_congr hag i false _
  have hshift := coartStep_locusShift ctx.pack.lang
    (rclamp ctx.pack.lang.coarticulationStrength 0 1)
    (rclamp ctx.pack.lang.coarticulationTransitionExtent 0 1)
    st2 i c d hsil hdef hnv hpl (by rw [hReq]; exact hnp)
    (by rw [hLeq, hReq]; exact hwpos) hcf2 hpf2
  rw [hLeq, hReq] at hshift
  exact ⟨_, hres, hshift.1, hshift.2⟩

/-- C3 (amended): in the coarticulation pass (enabled, clamped strength
positive), a non-silence consonant with a known place of articulation has
cf2 and pf2 shifted toward the place's F2 locus by the effective strength,
*except* when the velar-pinch special case takes over (velar place, pinch
enabled, vowel-like token immediately to the right — in which case the pinch
path runs instead, doing nothing at all for a back vowel) and, under
graduated coarticulation, only when a vowel-like token is found nearby.  The
formant hypotheses `0 < cf2, pf2` keep the adjacent-vowel fallback out of
play. -/
theorem c3_locus_shift (ctx : PassContext) (tokens : List Token) (i : Nat)
    (c : Token) (d : PhonemeDef)
    (hen : ctx.pack.lang.coarticulationEnabled = true)
    (hstr : 0 < rclamp ctx.pack.lang.coarticulationStrength 0 1)
    (hi : tokens[i]? = some c)
    (hsil : c.silence = false) (hdef : c.tdef = some d) (hnv : d.isVowel = false)
    (hpl : getPlaceOfArticulation d.key ≠ PlaceOfArticulation.Unknown)
    (hnp : ¬(getPlaceOfArticulation d.key = PlaceOfArticulation.Velar ∧
        ctx.pack.lang.coarticulationVelarPinchEnabled = true ∧
        (findNearestVowelRight tokens i false (adjMaxCons ctx.pack.lang)).tokIdx.isSome = true ∧
        (findNearestVowelRight tokens i false (adjMaxCons ctx.pack.lang)).consonantsAway = 0))
    (hwpos : ctx.pack.lang.coarticulationGraduated = true →
        0 < max (hitWeight (findNearestVowelLeft tokens i false (adjMaxCons ctx.pack.lang)))
            (hitWeight (findNearestVowelRight tokens i false (adjMaxCons ctx.pack.lang))))
    (hcf2 : 0 < getField c FieldId.cf2) (hpf2 : 0 < getField c FieldId.pf2) :
    ∃ t, (runCoarticulation ctx tokens)[i]? = some t ∧
      getField t FieldId.cf2 =
        getField c FieldId.cf2 +
          (locusFor ctx.pack.lang (getPlaceOfArticulation d.key) - getField c FieldId.cf2) *
            (rclamp ctx.pack.lang.coarticulationStrength 0 1 *
              rclamp (if ctx.pack.lang.coarticulationGraduated = true
                then max (hitWeight (findNearestVowelLeft tokens i false (adjMaxCons ctx.pack.lang)))
                  (hitWeight (findNearestVowelRight tokens i false (adjMaxCons ctx.pack.lang)))
                else 1) 0 1) ∧
      getField t FieldId.pf2 =
        getField c FieldId.pf2 +
          (locusFor ctx.pack.lang (getPlaceOfArticulation d.key) - getField c FieldId.pf2) *
            (rclamp ctx.pack.lang.coarticulationStrength 0 1 *
              rclamp (if ctx.pack.lang.coarticulationGraduated = true
                then max (hitWeight (findNearestVowelLeft tokens i false (adjMaxCons ctx.pack.lang)))
                  (hitWeight (findNearestVowelRight tokens i false (adjMaxCons ctx.pack.lang)))
                else 1) 0 1) :=
  runCoarticulation_locusShift ctx tokens i c d hen hstr hi hsil hdef hnv hpl hnp hwpos
    hcf2 hpf2

/-- C4 (amended): when graduated coarticulation is enabled, the interpolation
strength applied to a known-place consonant equals the clamped
`coarticulationStrength` times `w`, where `w = max(hitWeight left, hitWeight
right) = 1/(consonantsAway+1)` for the nearer of the vowel-like tokens found
by the two searches (which do not cross silence or word boundaries and are
capped at the adjacency maximum); when graduated coarticulation is disabled
the weight is 1 regardless of distance.  Exhibited on cf2. -/
theorem c4_graduated_weight (ctx : PassContext) (tokens : List Token) (i : Nat)
    (c : Token) (d : PhonemeDef)
    (hen : ctx.pack.lang.coarticulationEnabled = true)
    (hstr : 0 < rclamp ctx.pack.lang.coarticulationStrength 0 1)
    (hg : ctx.pack.lang.coarticulationGraduated = true)
    (hi : tokens[i]? = some c)
    (hsil : c.silence = false) (hdef : c.tdef = some d) (hnv : d.isVowel = false)
    (hpl : getPlaceOfArticulation d.key ≠ PlaceOfArticulation.Unknown)
    (hnp : ¬(getPlaceOfArticulation d.key = PlaceOfArticulation.Velar ∧
        ctx.pack.lang.coarticulationVelarPinchEnabled = true ∧
        (findNearestVowelRight tokens i false (adjMaxCons ctx.pack.lang)).tokIdx.isSome = true ∧
        (findNearestVowelRight tokens i false (adjMaxCons ctx.pack.lang)).consonantsAway = 0))
    (hwpos : 0 < max (hitWeight (findNearestVowelLeft tokens i false (adjMaxCons ctx.pack.lang)))
        (hitWeight (findNearestVowelRight tokens i false (adjMaxCons ctx.pack.lang))))
    (hcf2 : 0 < getField c FieldId.cf2) (hpf2 : 0 < getField c FieldId.pf2) :
    ∃ t, (runCoarticulation ctx tokens)[i]? = some t ∧
      getField t FieldId.cf2 =
        getField c FieldId.cf2 +
          (locusFor ctx.pack.lang (getPlaceOfArticulation d.key) - getField c FieldId.cf2) *
            (rclamp ctx.pack.lang.coarticulationStrength 0 1 *
              max (hitWeight (findNearestVowelLeft tokens i false (adjMaxCons ctx.pack.lang)))
                (hitWeight (findNearestVowelRight tokens i false (adjMaxCons ctx.pack.lang)))) := by
  obtain ⟨t, hres, hcf, -⟩ := runCoarticulation_locusShift ctx tokens i c d hen hstr hi hsil
    hdef hnv hpl hnp (fun _ => hwpos) hcf2 hpf2
  refine ⟨t, hres, ?_⟩
  rw [hcf, if_pos hg]
  rw [rclamp_eq_self
    (le_max_of_le_left (hitWeight_nonneg _))
    (max_le (hitWeight_le_one _) (hitWeight_le_one _))]

/-! ### Evaluation helpers and concrete counterexamples / witnesses -/

theorem place_key_k : getPlaceOfArticulation ['k'] = PlaceOfArticulation.Velar := by decide

theorem place_key_t : getPlaceOfArticulation ['t'] = PlaceOfArticulation.Alveolar := by decide

theorem place_key_i : getPlaceOfArticulation ['i'] = PlaceOfArticulation.Unknown := by decide

theorem place_key_a : getPlaceOfArticulation ['a'] = PlaceOfArticulation.Unknown := by decide

theorem place_key_u : getPlaceOfArticulation ['u'] = PlaceOfArticulation.Unknown := by decide

theorem roundHalfAway_three : NVSP.roundHalfAway (3 : ℚ) = 3 := by
  unfold NVSP.roundHalfAway
  rw [if_neg (by norm_num)]
  rw [Int.floor_eq_iff]
  constructor <;> norm_num

theorem adjMaxCons_ctxCoart : adjMaxCons ctxCoart.pack.lang = 3 := by
  unfold adjMaxCons
  rw [show ctxCoart.pack.lang.coarticulationAdjacencyMaxConsonants = (3 : ℚ) from rfl]
  rw [roundHalfAway_three]
  decide

theorem adjMaxCons_ctxCoartGrad : adjMaxCons ctxCoartGrad.pack.lang = 3 := by
  unfold adjMaxCons
  rw [show ctxCoartGrad.pack.lang.coarticulationAdjacencyMaxConsonants = (3 : ℚ) from rfl]
  rw [roundHalfAway_three]
  decide

theorem rclamp_ctxCoartStrength : NVSP.rclamp ctxCoart.pack.lang.coarticulationStrength 0 1 = 1/2 := by
  show NVSP.rclamp (1/2) 0 1 = 1/2
  exact rclamp_eq_self (by norm_num) (by norm_num)

theorem rclamp_ctxCoartGradStrength :
    NVSP.rclamp ctxCoartGrad.pack.lang.coarticulationStrength 0 1 = 1/2 := by
  show NVSP.rclamp (1/2) 0 1 = 1/2
  exact rclamp_eq_self (by norm_num) (by norm_num)

/-- C2 — counterexample.  `[tokI, tokK]`: the velar /k/ has a front vowel
(F2 = 2200 ≥ threshold 1700) *immediately to its left*, and nothing to its
right.  The claim (pinch for an adjacent front vowel found on either side)
predicts cf2 blended toward 2200·0.9 = 1980 by 1/2, i.e. 1690, and cf3
blended toward 2500, i.e. 2400.  The code instead runs the ordinary locus
shift: cf2 = 1400 + (1300−1400)/2 = 1350 and cf3 stays 2300. -/
theorem c2_counterexample :
    ((runCoarticulation ctxCoart [tokI, tokK])[1]?).map (fun t => getField t FieldId.cf2)
        = some 1350 ∧
    ((runCoarticulation ctxCoart [tokI, tokK])[1]?).map (fun t => getField t FieldId.cf3)
        = some 2300 ∧
    (1350 : ℚ) ≠ 1690 ∧ (2300 : ℚ) ≠ 2400 := by
  refine ⟨?_, ?_, by norm_num, by norm_num⟩ <;>
    norm_num +decide [runCoarticulation, NVSP.passLoop, coartStep, fadeIntoConsonant,
      applyVelarPinch, applyLocusShift, locusBase, blendToward, blendVal, setField,
      getField, hasField, pinchVowelF2, findNearestVowelLeft, findNearestVowelLeftAux,
      findNearestVowelRight, findNearestVowelRightAux, hitWeight, adjMaxCons,
      roundHalfAway_three, locusFor, place_key_k, place_key_i, isSilenceOrMissing,
      isVowelLike, isVowel, isSemivowel, isConsonant, NVSP.rclamp, ctxCoart, langCoart,
      tokI, tokK, pdI, pdK, mkMask, mkVals]

/-- Witness for C2 (amended): `[tokK, tokI]` — /k/ immediately followed by
the front vowel /i/ does get the pinch, with blend factor the clamped
strength 1/2. -/
theorem c2_witness :
    ∃ t, (runCoarticulation ctxCoart [tokK, tokI])[0]? = some t ∧
      getField t FieldId.cf2 =
        blendVal (getField tokK FieldId.cf2)
          (pinchVowelF2 tokI * ctxCoart.pack.lang.coarticulationVelarPinchF2Scale)
          (NVSP.rclamp ctxCoart.pack.lang.coarticulationStrength 0 1) ∧
      getField t FieldId.pf2 =
        blendVal (getField tokK FieldId.pf2)
          (pinchVowelF2 tokI * ctxCoart.pack.lang.coarticulationVelarPinchF2Scale)
          (NVSP.rclamp ctxCoart.pack.lang.coarticulationStrength 0 1) ∧
      (0 < ctxCoart.pack.lang.coarticulationVelarPinchF3 →
        getField t FieldId.cf3 =
          blendVal (getField tokK FieldId.cf3) ctxCoart.pack.lang.coarticulationVelarPinchF3
            (NVSP.rclamp ctxCoart.pack.lang.coarticulationStrength 0 1) ∧
        getField t FieldId.pf3 =
          blendVal (getField tokK FieldId.pf3) ctxCoart.pack.lang.coarticulationVelarPinchF3
            (NVSP.rclamp ctxCoart.pack.lang.coarticulationStrength 0 1)) :=
  c2_velar_pinch ctxCoart [tokK, tokI] 0 1 tokK tokI pdK
    rfl
    (by rw [rclamp_ctxCoartStrength]; norm_num)
    rfl rfl rfl rfl rfl
    (by decide)
    (by rw [adjMaxCons_ctxCoart]; decide)
    rfl
    (by norm_num +decide [pinchVowelF2, getField, hasField, tokI, pdI, mkMask, mkVals,
      ctxCoart, langCoart])

/-- C3 — counterexample.  `[tokK, tokU]` with velar pinch enabled: /k/ is
immediately followed by the back vowel /u/ (F2 = 900 < threshold 1700), so
the pinch path runs, detects a back vowel, and returns without touching the
token — no locus shift happens either.  The claim predicts cf2 shifted
toward the velar locus: 1400 + (1300−1400)/2 = 1350; the code leaves 1400. -/
theorem c3_counterexample :
    ((runCoarticulation ctxCoart [tokK, tokU])[0]?).map (fun t => getField t FieldId.cf2)
        = some 1400 ∧
    (1400 : ℚ) ≠ 1350 := by
  refine ⟨?_, by norm_num⟩
  norm_num +decide [runCoarticulation, NVSP.passLoop, coartStep, fadeIntoConsonant,
    applyVelarPinch, applyLocusShift, locusBase, blendToward, blendVal, setField,
    getField, hasField, pinchVowelF2, findNearestVowelLeft, findNearestVowelLeftAux,
    findNearestVowelRight, findNearestVowelRightAux, hitWeight, adjMaxCons,
    roundHalfAway_three, locusFor, place_key_k, place_key_u, isSilenceOrMissing,
    isVowelLike, isVowel, isSemivowel, isConsonant, NVSP.rclamp, ctxCoart, langCoart,
    tokK, tokU, pdK, pdU, mkMask, mkVals]

/-- Witness for C3 (amended): the alveolar /t/ after /a/ gets its cf2 and
pf2 shifted toward the alveolar locus by the effective strength. -/
theorem c3_witness :
    ∃ t, (runCoarticulation ctxCoart [tokA, tokT])[1]? = some t ∧
      getField t FieldId.cf2 =
        getField tokT FieldId.cf2 +
          (locusFor ctxCoart.pack.lang (getPlaceOfArticulation pdT.key) -
              getField tokT FieldId.cf2) *
            (NVSP.rclamp ctxCoart.pack.lang.coarticulationStrength 0 1 *
              NVSP.rclamp (if ctxCoart.pack.lang.coarticulationGraduated = true
                then max (hitWeight (findNearestVowelLeft [tokA, tokT] 1 false
                    (adjMaxCons ctxCoart.pack.lang)))
                  (hitWeight (findNearestVowelRight [tokA, tokT] 1 false
                    (adjMaxCons ctxCoart.pack.lang)))
                else 1) 0 1) ∧
      getField t FieldId.pf2 =
        getField tokT FieldId.pf2 +
          (locusFor ctxCoart.pack.lang (getPlaceOfArticulation pdT.key) -
              getField tokT FieldId.pf2) *
            (NVSP.rclamp ctxCoart.pack.lang.coarticulationStrength 0 1 *
              NVSP.rclamp (if ctxCoart.pack.lang.coarticulationGraduated = true
                then max (hitWeight (findNearestVowelLeft [tokA, tokT] 1 false
                    (adjMaxCons ctxCoart.pack.lang)))
                  (hitWeight (findNearestVowelRight [tokA, tokT] 1 false
                    (adjMaxCons ctxCoart.pack.lang)))
                else 1) 0 1) :=
  c3_locus_shift ctxCoart [tokA, tokT] 1 tokT pdT
    rfl
    (by rw [rclamp_ctxCoartStrength]; norm_num)
    rfl rfl rfl rfl
    (by intro hx; exact absurd hx (by decide))
    (by rintro ⟨hx, -⟩; exact absurd hx (by decide))
    (by intro hgr; exact absurd hgr (by decide))
    (by norm_num +decide [getField, hasField, tokT, pdT, mkMask, mkVals])
    (by norm_num +decide [getField, hasField, tokT, pdT, mkMask, mkVals])

/-- C4 — counterexample.  With graduated coarticulation *disabled*, the
second /t/ of `[a, t, t]` (nearest vowel one consonant away) still gets the
full strength 1/2 — cf2 = 1800 + (1700−1800)/2 = 1750 — whereas the claim's
`strength·1/(consonantsAway+1) = 1/4` predicts 1775. -/
theorem c4_counterexample :
    ((runCoarticulation ctxCoart [tokA, tokT, tokT])[2]?).map
        (fun t => getField t FieldId.cf2) = some 1750 ∧
    (1750 : ℚ) ≠ 1775 := by
  refine ⟨?_, by norm_num⟩
  norm_num +decide [runCoarticulation, NVSP.passLoop, coartStep, fadeIntoConsonant,
    applyVelarPinch, applyLocusShift, locusBase, blendToward, blendVal, setField,
    getField, hasField, pinchVowelF2, findNearestVowelLeft, findNearestVowelLeftAux,
    findNearestVowelRight, findNearestVowelRightAux, hitWeight, adjMaxCons,
    roundHalfAway_three, locusFor, place_key_t, place_key_a, isSilenceOrMissing,
    isVowelLike, isVowel, isSemivowel, isConsonant, NVSP.rclamp, ctxCoart, langCoart,
    tokA, tokT, pdA, pdT, mkMask, mkVals]

/-- Witness for C4 (amended): with graduated coarticulation enabled, the
same consonant's shift factor is `strength · max(hitWeight left, hitWeight
right)`. -/
theorem c4_witness :
    ∃ t, (runCoarticulation ctxCoartGrad [tokA, tokT, tokT])[2]? = some t ∧
      getField t FieldId.cf2 =
        getField tokT FieldId.cf2 +
          (locusFor ctxCoartGrad.pack.lang (getPlaceOfArticulation pdT.key) -
              getField tokT FieldId.cf2) *
            (NVSP.rclamp ctxCoartGrad.pack.lang.coarticulationStrength 0 1 *
              max (hitWeight (findNearestVowelLeft [tokA, tokT, tokT] 2 false
                  (adjMaxCons ctxCoartGrad.pack.lang)))
                (hitWeight (findNearestVowelRight [tokA, tokT, tokT] 2 false
                  (adjMaxCons ctxCoartGrad.pack.lang)))) :=
  c4_graduated_weight ctxCoartGrad [tokA, tokT, tokT] 2 tokT pdT
    rfl
    (by rw [rclamp_ctxCoartGradStrength]; norm_num)
    rfl rfl rfl rfl rfl
    (by intro hx; exact absurd hx (by decide))
    (by rintro ⟨hx, -⟩; exact absurd hx (by decide))
    (by
      rw [show findNearestVowelLeft [tokA, tokT, tokT] 2 false
          (adjMaxCons ctxCoartGrad.pack.lang) = ⟨some 0, 1⟩ by
        rw [adjMaxCons_ctxCoartGrad]; decide]
      rw [show findNearestVowelRight [tokA, tokT, tokT] 2 false
          (adjMaxCons ctxCoartGrad.pack.lang) = ⟨none, 0⟩ by
        rw [adjMaxCons_ctxCoartGrad]; decide]
      norm_num [hitWeight])
    (by norm_num +decide [getField, hasField, tokT, pdT, mkMask, mkVals])
    (by norm_num +decide [getField, hasField, tokT, pdT, mkMask, mkVals])

end Coarticulation

/-! ### Frontend claims C6, C7, C8, C9, C10 -/

namespace Frontend

/-- A successful `setLanguage` leaves the handle with a loaded pack and the
stream-has-speech flag cleared. -/
theorem setLanguage_ok_state (env : FrontendEnv) (h : HandleState) (langTag? : Option String)
    (h2 : HandleState) (hset : nvspFrontend_setLanguage env h langTag? = (true, h2)) :
    h2.packLoaded = true ∧ h2.streamHasSpeech = false := by
  unfold nvspFrontend_setLanguage at hset
  try dsimp only at hset
  rcases hres : env.loadPackSet h.packDir (langTag?.getD "") with ⟨ok, pack, err⟩
  rw [hres] at hset
  cases ok
  · simp at hset
  · try dsimp only at hset
    injection hset with h1 h2eq
    rw [← h2eq]
    exact ⟨rfl, rfl⟩

/-- C6 (amended): a `queueIPA` call with a callback, a loaded pack, a
successful conversion producing at least one token, and a configured gap,
delivers — exactly when the stream already has speech — exactly one silence
frame of duration `segmentBoundaryGapMs / effectiveSpeed speed` (the pack
value is in ms at speed 1.0) before the call's own frames, and no such frame
when the stream is fresh. -/
theorem c6_segment_gap (env : FrontendEnv) (h : HandleState) (ipa? : Option String)
    (speed basePitch inflection : ℚ) (clauseType? : Option String) (userIndexBase : ℤ)
    (tokens : List Token) (msg : String)
    (hl : h.packLoaded = true)
    (hconv : convertIpaToTokens env h.pack (ipa?.getD "") speed basePitch inflection
        (parseClauseType clauseType?) = (true, tokens, msg))
    (hne : tokens.isEmpty = false)
    (hgap : 0 < h.pack.lang.segmentBoundaryGapMs) :
    (nvspFrontend_queueIPA env h ipa? speed basePitch inflection clauseType? userIndexBase
        true).events =
      (if h.streamHasSpeech = true then
        [{ isNull := true,
           minDurationMs := h.pack.lang.segmentBoundaryGapMs / effectiveSpeed speed,
           fadeMs := if 0 < h.pack.lang.segmentBoundaryFadeMs then
               h.pack.lang.segmentBoundaryFadeMs / effectiveSpeed speed
             else 0,
           userIndex := -1 }]
      else []) ++ env.emitFrames h.pack tokens userIndexBase := by
  unfold nvspFrontend_queueIPA
  try dsimp only
  rw [hl, if_pos rfl]
  try dsimp only
  rw [hconv]
  try dsimp only
  rw [hne]
  cases hs : h.streamHasSpeech
  · simp
  · simp [hgap]

/-- C7: a `queueIPA` call with `speed ≤ 0` behaves exactly as the same call
with `speed = 1`, and the boundary-smoothing pass with a non-positive
context speed behaves exactly as with speed 1 (every use of speed goes
through the "treat non-positive as 1.0" guard). -/
theorem c7_nonpositive_speed (env : FrontendEnv) (h : HandleState) (ipa? : Option String)
    (speed basePitch inflection : ℚ) (clauseType? : Option String) (base : ℤ) (cb : Bool)
    (pack : PackSet) (tokens : List Token) (hs : speed ≤ 0) :
    nvspFrontend_queueIPA env h ipa? speed basePitch inflection clauseType? base cb =
      nvspFrontend_queueIPA env h ipa? 1 basePitch inflection clauseType? base cb ∧
    BoundarySmoothing.runBoundarySmoothing { speed := speed, pack := pack } tokens =
      BoundarySmoothing.runBoundarySmoothing { speed := 1, pack := pack } tokens := by
  have he : effectiveSpeed speed = effectiveSpeed 1 := by
    unfold effectiveSpeed
    rw [if_pos hs, if_neg (by norm_num : ¬ (1 : ℚ) ≤ 0)]
  constructor
  · unfold nvspFrontend_queueIPA convertIpaToTokens
    simp only [he]
  · unfold BoundarySmoothing.runBoundarySmoothing
    try dsimp only
    rw [show (if 0 < speed then speed else 1) = 1 from if_neg (not_lt.mpr hs)]
    rw [show (if (0 : ℚ) < 1 then (1 : ℚ) else 1) = 1 from if_pos (by norm_num)]

/-- C8: producer calls report failure by status and stash a non-empty
message retrievable through `getLastError`; success clears the message. -/
theorem c8_error_reporting (env : FrontendEnv) (h : HandleState) (langTag? ipa? : Option String)
    (speed basePitch inflection : ℚ) (clauseType? : Option String) (base : ℤ) (cb : Bool) :
    ((nvspFrontend_setLanguage env h langTag?).1 = false →
      nvspFrontend_getLastError (nvspFrontend_setLanguage env h langTag?).2 ≠ "") ∧
    ((nvspFrontend_setLanguage env h langTag?).1 = true →
      nvspFrontend_getLastError (nvspFrontend_setLanguage env h langTag?).2 = "") ∧
    ((nvspFrontend_queueIPA env h ipa? speed basePitch inflection clauseType? base cb).ok
        = false →
      nvspFrontend_getLastError
        (nvspFrontend_queueIPA env h ipa? speed basePitch inflection clauseType? base cb).state
        ≠ "") ∧
    ((nvspFrontend_queueIPA env h ipa? speed basePitch inflection clauseType? base cb).ok
        = true →
      nvspFrontend_getLastError
        (nvspFrontend_queueIPA env h ipa? speed basePitch inflection clauseType? base cb).state
        = "") := by
  have hS : ((nvspFrontend_setLanguage env h langTag?).1 = false →
      nvspFrontend_getLastError (nvspFrontend_setLanguage env h langTag?).2 ≠ "") ∧
      ((nvspFrontend_setLanguage env h langTag?).1 = true →
        nvspFrontend_getLastError (nvspFrontend_setLanguage env h langTag?).2 = "") := by
    simp only [nvspFrontend_setLanguage, nvspFrontend_getLastError]
    rcases env.loadPackSet h.packDir (langTag?.getD "") with ⟨ok, pack, err⟩
    cases ok
    · refine ⟨fun _ => ?_, fun hc => by simp at hc⟩
      try dsimp only
      split
      · decide
      · next hne => exact hne
    · exact ⟨fun hc => by simp at hc, fun _ => rfl⟩
  have hQ : ((nvspFrontend_queueIPA env h ipa? speed basePitch inflection clauseType? base
        cb).ok = false →
      nvspFrontend_getLastError
        (nvspFrontend_queueIPA env h ipa? speed basePitch inflection clauseType? base cb).state
        ≠ "") ∧
      ((nvspFrontend_queueIPA env h ipa? speed basePitch inflection clauseType? base cb).ok
          = true →
        nvspFrontend_getLastError
          (nvspFrontend_queueIPA env h ipa? speed basePitch inflection clauseType? base
            cb).state = "") := by
    simp only [nvspFrontend_queueIPA, nvspFrontend_getLastError]
    cases hpl : h.packLoaded
    · simp only [Bool.false_eq_true, if_false]
      rcases env.loadPackSet h.packDir "default" with ⟨ok, pack, err⟩
      cases ok
      · refine ⟨fun _ => ?_, fun hc => by simp at hc⟩
        try dsimp only
        split
        · decide
        · next hne => exact hne
      · dsimp only
        rcases convertIpaToTokens env pack (ipa?.getD "") speed basePitch inflection
            (parseClauseType clauseType?) with ⟨okc, toks, errc⟩
        cases okc
        · refine ⟨fun _ => ?_, fun hc => by simp at hc⟩
          try dsimp only
          split
          · decide
          · next hne => exact hne
        · exact ⟨fun hc => by simp at hc, fun _ => rfl⟩
    · rw [if_pos rfl]
      try dsimp only
      rcases convertIpaToTokens env h.pack (ipa?.getD "") speed basePitch inflection
          (parseClauseType clauseType?) with ⟨okc, toks, errc⟩
      cases okc
      · refine ⟨fun _ => ?_, fun hc => by simp at hc⟩
        try dsimp only
        split
        · decide
        · next hne => exact hne
      · exact ⟨fun hc => by simp at hc, fun _ => rfl⟩
  exact ⟨hS.1, hS.2, hQ.1, hQ.2⟩

/-- C9: `setLanguage` is atomic on failure — pack, packLoaded, langTag,
streamHasSpeech (and packDir) are all unchanged; only the stored error
message differs. -/
theorem c9_setLanguage_atomic (env : FrontendEnv) (h : HandleState)
    (langTag? : Option String)
    (hf : (nvspFrontend_setLanguage env h langTag?).1 = false) :
    (nvspFrontend_setLanguage env h langTag?).2.pack = h.pack ∧
    (nvspFrontend_setLanguage env h langTag?).2.packLoaded = h.packLoaded ∧
    (nvspFrontend_setLanguage env h langTag?).2.langTag = h.langTag ∧
    (nvspFrontend_setLanguage env h langTag?).2.streamHasSpeech = h.streamHasSpeech ∧
    (nvspFrontend_setLanguage env h langTag?).2.packDir = h.packDir := by
  unfold nvspFrontend_setLanguage at hf ⊢
  try dsimp only at hf ⊢
  rcases hres : env.loadPackSet h.packDir (langTag?.getD "") with ⟨ok, pack, err⟩
  rw [hres] at hf
  cases ok
  · exact ⟨rfl, rfl, rfl, rfl, rfl⟩
  · simp at hf

/-- C10: after a successful `setLanguage`, the next `queueIPA` call never
delivers the inter-segment silence frame — its events are exactly the
emitter's frames (or nothing without a callback) — regardless of how much
speech the handle had emitted before and of the configured gap. -/
theorem c10_language_change_resets_stream (env : FrontendEnv) (h h2 : HandleState)
    (langTag? ipa? : Option String) (speed basePitch inflection : ℚ)
    (clauseType? : Option String) (base : ℤ) (cb : Bool) (tokens : List Token) (msg : String)
    (hset : nvspFrontend_setLanguage env h langTag? = (true, h2))
    (hconv : convertIpaToTokens env h2.pack (ipa?.getD "") speed basePitch inflection
        (parseClauseType clauseType?) = (true, tokens, msg)) :
    (nvspFrontend_queueIPA env h2 ipa? speed basePitch inflection clauseType? base cb).events =
      (if cb = true then env.emitFrames h2.pack tokens base else []) := by
  obtain ⟨hpl, hss⟩ := setLanguage_ok_state env h langTag? h2 hset
  unfold nvspFrontend_queueIPA
  try dsimp only
  rw [hpl, if_pos rfl]
  try dsimp only
  rw [hconv]
  try dsimp only
  rw [hss]
  simp

/-- C6 — counterexample.  With `speed = 2` and `segmentBoundaryGapMs = 20`,
the inserted silence frame is delivered with duration 10 (= 20/2), not the
configured 20 the claim states. -/
theorem c6_counterexample :
    (nvspFrontend_queueIPA envOk hSpeech (some "a") 2 0 0 none 0 true).events =
      [{ isNull := true, minDurationMs := 10, fadeMs := 0, userIndex := -1 },
       { isNull := false, minDurationMs := 130, fadeMs := 5, userIndex := 0 }] ∧
    hSpeech.pack.lang.segmentBoundaryGapMs = 20 ∧ (10 : ℚ) ≠ 20 := by
  refine ⟨?_, rfl, by norm_num⟩
  norm_num +decide [nvspFrontend_queueIPA, convertIpaToTokens, effectiveSpeed,
    parseClauseType, envOk, hSpeech, packGap20]

/-- Witness for C6 (amended) at the concrete counterexample configuration. -/
theorem c6_witness :
    (nvspFrontend_queueIPA envOk hSpeech (some "a") 2 0 0 none 0 true).events =
      (if hSpeech.streamHasSpeech = true then
        [{ isNull := true,
           minDurationMs := hSpeech.pack.lang.segmentBoundaryGapMs / effectiveSpeed 2,
           fadeMs := if 0 < hSpeech.pack.lang.segmentBoundaryFadeMs then
               hSpeech.pack.lang.segmentBoundaryFadeMs / effectiveSpeed 2
             else 0,
           userIndex := -1 }]
      else []) ++ envOk.emitFrames hSpeech.pack [tokA] 0 :=
  c6_segment_gap envOk hSpeech (some "a") 2 0 0 none 0 [tokA] "" rfl rfl rfl
    (by show (0 : ℚ) < 20; norm_num)

/-- Witness for C7 at `speed = -1`. -/
theorem c7_witness :
    nvspFrontend_queueIPA envOk hFresh (some "a") (-1) 0 0 none 0 true =
      nvspFrontend_queueIPA envOk hFresh (some "a") 1 0 0 none 0 true ∧
    BoundarySmoothing.runBoundarySmoothing { speed := -1, pack := ctxC1.pack } [tokA, tokT] =
      BoundarySmoothing.runBoundarySmoothing { speed := 1, pack := ctxC1.pack } [tokA, tokT] :=
  c7_nonpositive_speed envOk hFresh (some "a") (-1) 0 0 none 0 true ctxC1.pack [tokA, tokT]
    (by norm_num)

/-- Witness for C8 on a failing and a succeeding environment. -/
theorem c8_witness :
    nvspFrontend_getLastError (nvspFrontend_setLanguage envFail hFresh (some "en")).2 ≠ "" ∧
    nvspFrontend_getLastError (nvspFrontend_setLanguage envOk hFresh (some "en")).2 = "" ∧
    nvspFrontend_getLastError
      (nvspFrontend_queueIPA envFail hFresh (some "a") 1 0 0 none 0 true).state ≠ "" ∧
    nvspFrontend_getLastError
      (nvspFrontend_queueIPA envOk hFresh (some "a") 1 0 0 none 0 true).state = "" :=
  ⟨(c8_error_reporting envFail hFresh (some "en") (some "a") 1 0 0 none 0 true).1 rfl,
   (c8_error_reporting envOk hFresh (some "en") (some "a") 1 0 0 none 0 true).2.1 rfl,
   (c8_error_reporting envFail hFresh (some "en") (some "a") 1 0 0 none 0 true).2.2.1 rfl,
   (c8_error_reporting envOk hFresh (some "en") (some "a") 1 0 0 none 0 true).2.2.2 rfl⟩

/-- Witness for C9 at a failing load on a fully populated handle. -/
theorem c9_witness :
    (nvspFrontend_setLanguage envFail hSpeech (some "en")).2.pack = hSpeech.pack ∧
    (nvspFrontend_setLanguage envFail hSpeech (some "en")).2.packLoaded = hSpeech.packLoaded ∧
    (nvspFrontend_setLanguage envFail hSpeech (some "en")).2.langTag = hSpeech.langTag ∧
    (nvspFrontend_setLanguage envFail hSpeech (some "en")).2.streamHasSpeech
        = hSpeech.streamHasSpeech ∧
    (nvspFrontend_setLanguage envFail hSpeech (some "en")).2.packDir = hSpeech.packDir :=
  c9_setLanguage_atomic envFail hSpeech (some "en") rfl

/-- Witness for C10: after `setLanguage` on a handle that had speech, the
next call's events carry no inter-segment silence frame. -/
theorem c10_witness :
    (nvspFrontend_queueIPA envOk hAfter (some "a") 1 0 0 none 0 true).events =
      (if true = true then envOk.emitFrames hAfter.pack [tokA] 0 else []) :=
  c10_language_change_resets_stream envOk hSpeech hAfter (some "en") (some "a") 1 0 0 none 0
    true [tokA] "" rfl rfl

end Frontend

end NVSP

